import Mathlib

/-!
Verification of the mesh validator in DirectXMesh/DirectXMeshValidate.cpp.

The C++ code is shallowly embedded: index buffers are total functions
`Nat → Nat` whose reads are reduced modulo the index width (uint16 or uint32),
the optional adjacency buffer and the optional diagnostic sink are `Option`s,
HRESULT codes are an inductive type of the distinct codes the file returns,
and the early-return control flow is an `Except` value.  `w` is the index
width in bits: 16 for the `uint16_t` entry point, 32 for the `uint32_t` one.
-/

namespace DXMesh

/-- The distinct HRESULT codes returned by DirectXMeshValidate.cpp:
`S_OK` (0), `E_FAIL` (0x80004005), `E_INVALIDARG` (0x80070057),
`E_OUTOFMEMORY` (0x8007000E) and
`HRESULT_FROM_WIN32(ERROR_ARITHMETIC_OVERFLOW)` (0x80070216). -/
inductive HResult where
  | S_OK
  | E_FAIL
  | E_INVALIDARG
  | E_OUTOFMEMORY
  | E_ARITHMETIC_OVERFLOW
deriving DecidableEq

/-- `FAILED(hr)`: every code above except `S_OK` is negative, hence a failure. -/
def FAILED : HResult → Bool
  | .S_OK => false
  | _ => true

/-- The 32-bit all-bits-set sentinel (`UNUSED32` = 0xFFFFFFFF). -/
def UNUSED32 : Nat := 4294967295

/-- The all-bits-set sentinel of an index width: `index_t(-1)`. -/
def sentinel (w : Nat) : Nat := 2 ^ w - 1

/-- The flag bits recognized by `Validate` (`VALIDATE_BACKFACING`,
`VALIDATE_BOWTIES`, `VALIDATE_DEGENERATE`), modelled as independent booleans. -/
structure Flags where
  backfacing : Bool
  bowties : Bool
  degenerate : Bool
deriving DecidableEq

/-- One diagnostic line appended to the `std::wstring` sink; each constructor
is one of the swprintf formats of the file together with its numeric
arguments, in the order they are printed. -/
inductive Msg where
  | missingAdjBackfacing
  | missingAdjBowties
  | invalidIndex (i face : Nat)
  | invalidNeighbor (j face : Nat)
  | duplicatePoint (bad face : Nat)
  | duplicateNeighbor (bad face : Nat)
  | bowtieHeader
  | bowtie (vert curFace priorFace : Nat)
deriving DecidableEq

/-- The value `indices[face*3 + point]` as the machine reads it (an
`index_t`, i.e. reduced modulo `2^w`). -/
def idxAt (w : Nat) (indices : Nat → Nat) (face point : Nat) : Nat :=
  indices (face * 3 + point) % 2 ^ w

/-- The value `adjacency[face*3 + point]` as the machine reads it (a
`uint32_t`). -/
def adjAt (adj : Nat → Nat) (face point : Nat) : Nat :=
  adj (face * 3 + point) % 2 ^ 32

/-- Condition of DirectXMeshValidate.cpp line 46: vertex index out of range
and not the sentinel. -/
abbrev vertexBad (w : Nat) (indices : Nat → Nat) (nVerts face point : Nat) : Prop :=
  nVerts ≤ idxAt w indices face point ∧ idxAt w indices face point ≠ sentinel w

/-- Condition of line 61: neighbor index out of range and not `UNUSED32`. -/
abbrev neighborBad (adj : Nat → Nat) (nFaces face point : Nat) : Prop :=
  nFaces ≤ adjAt adj face point ∧ adjAt adj face point ≠ UNUSED32

/-- Condition of lines 80-82: some two of the face's vertex indices equal. -/
abbrev degenerate (w : Nat) (indices : Nat → Nat) (face : Nat) : Prop :=
  idxAt w indices face 0 = idxAt w indices face 1 ∨
    idxAt w indices face 0 = idxAt w indices face 2 ∨
      idxAt w indices face 1 = idxAt w indices face 2

/-- The repeated vertex reported for a degenerate face (lines 91-97). -/
def degBadVertex (w : Nat) (indices : Nat → Nat) (face : Nat) : Nat :=
  if idxAt w indices face 0 = idxAt w indices face 1 then idxAt w indices face 0
  else if idxAt w indices face 1 = idxAt w indices face 2 then idxAt w indices face 2
  else idxAt w indices face 0

/-- Condition of lines 114-116: a non-sentinel neighbor listed twice. -/
abbrev dupNeighbor (adj : Nat → Nat) (face : Nat) : Prop :=
  (adjAt adj face 0 = adjAt adj face 1 ∧ adjAt adj face 0 ≠ UNUSED32) ∨
    (adjAt adj face 0 = adjAt adj face 2 ∧ adjAt adj face 0 ≠ UNUSED32) ∨
      (adjAt adj face 1 = adjAt adj face 2 ∧ adjAt adj face 1 ≠ UNUSED32)

/-- The duplicated neighbor reported (lines 123-129). -/
def dupNeighborVal (adj : Nat → Nat) (face : Nat) : Nat :=
  if adjAt adj face 0 = adjAt adj face 1 ∧ adjAt adj face 0 ≠ UNUSED32 then adjAt adj face 0
  else if adjAt adj face 0 = adjAt adj face 2 ∧ adjAt adj face 0 ≠ UNUSED32 then adjAt adj face 0
  else adjAt adj face 1

/-- State threaded through `ValidateIndices`: the `result` boolean of line 39
and the contents appended to the sink so far. -/
abbrev VAcc := Bool × List Msg

/-- The reporting pattern of lines 48-55 (and its three copies): without a
sink return `E_FAIL` at once, with a sink clear `result` and append one
message. -/
def report (hasMsgs : Bool) (m : Msg) : VAcc → Except (HResult × List Msg) VAcc
  | (_result, msgs) =>
    if hasMsgs then .ok (false, msgs ++ [m]) else .error (.E_FAIL, msgs)

/-- Lines 45-56: range check of one corner's vertex index. -/
def checkVertexIndex (w : Nat) (indices : Nat → Nat) (nVerts : Nat) (hasMsgs : Bool)
    (face point : Nat) (st : VAcc) : Except (HResult × List Msg) VAcc :=
  if vertexBad w indices nVerts face point then
    report hasMsgs (.invalidIndex (idxAt w indices face point) face) st
  else .ok st

/-- Lines 58-72: range check of one corner's neighbor index, skipped when no
adjacency was passed. -/
def checkNeighborIndex (adjacency : Option (Nat → Nat)) (nFaces : Nat) (hasMsgs : Bool)
    (face point : Nat) (st : VAcc) : Except (HResult × List Msg) VAcc :=
  match adjacency with
  | none => .ok st
  | some adj =>
    if neighborBad adj nFaces face point then
      report hasMsgs (.invalidNeighbor (adjAt adj face point) face) st
    else .ok st

/-- Lines 76-136: the degenerate check (degenerate faces `continue`, skipping
the duplicate-neighbor check) followed by the duplicate-neighbor check. -/
def faceTail (w : Nat) (indices : Nat → Nat) (adjacency : Option (Nat → Nat))
    (flags : Flags) (hasMsgs : Bool) (face : Nat) (st : VAcc) :
    Except (HResult × List Msg) VAcc :=
  if degenerate w indices face then
    if flags.degenerate then
      report hasMsgs (.duplicatePoint (degBadVertex w indices face) face) st
    else pure st
  else
    match adjacency with
    | some adj =>
      if flags.backfacing ∧ dupNeighbor adj face then
        report hasMsgs (.duplicateNeighbor (dupNeighborVal adj face) face) st
      else pure st
    | none => pure st

/-- The body of the `for(face …)` loop of lines 41-137: the three corners'
range checks (vertex then neighbor, per corner), then `faceTail`. -/
def doFace (w : Nat) (indices : Nat → Nat) (nFaces nVerts : Nat)
    (adjacency : Option (Nat → Nat)) (flags : Flags) (hasMsgs : Bool)
    (face : Nat) (st : VAcc) : Except (HResult × List Msg) VAcc := do
  let st ← checkVertexIndex w indices nVerts hasMsgs face 0 st
  let st ← checkNeighborIndex adjacency nFaces hasMsgs face 0 st
  let st ← checkVertexIndex w indices nVerts hasMsgs face 1 st
  let st ← checkNeighborIndex adjacency nFaces hasMsgs face 1 st
  let st ← checkVertexIndex w indices nVerts hasMsgs face 2 st
  let st ← checkNeighborIndex adjacency nFaces hasMsgs face 2 st
  faceTail w indices adjacency flags hasMsgs face st

/-- The face loop of `ValidateIndices`, over an explicit list of face ids. -/
def validateIndicesLoop (w : Nat) (indices : Nat → Nat) (nFaces nVerts : Nat)
    (adjacency : Option (Nat → Nat)) (flags : Flags) (hasMsgs : Bool) :
    List Nat → VAcc → Except (HResult × List Msg) VAcc
  | [], st => .ok st
  | face :: faces, st =>
    match doFace w indices nFaces nVerts adjacency flags hasMsgs face st with
    | .error e => .error e
    | .ok st2 => validateIndicesLoop w indices nFaces nVerts adjacency flags hasMsgs faces st2

/-- `ValidateIndices` (lines 27-140).  The first component is the returned
HRESULT, the second the messages appended to the sink (always `[]` when
`hasMsgs` is false). -/
def validateIndices (w : Nat) (indices : Nat → Nat) (nFaces nVerts : Nat)
    (adjacency : Option (Nat → Nat)) (flags : Flags) (hasMsgs : Bool) :
    HResult × List Msg :=
  if flags.backfacing && adjacency.isNone then
    (.E_INVALIDARG, if hasMsgs then [Msg.missingAdjBackfacing] else [])
  else
    match validateIndicesLoop w indices nFaces nVerts adjacency flags hasMsgs
        (List.range nFaces) (true, []) with
    | .error (hr, msgs) => (hr, msgs)
    | .ok (result, msgs) => (if result then .S_OK else .E_FAIL, msgs)

/-- The messages (none or one) that the vertex range check of one corner
reports. -/
def vertexPart (w : Nat) (indices : Nat → Nat) (nVerts face point : Nat) : List Msg :=
  if vertexBad w indices nVerts face point then
    [.invalidIndex (idxAt w indices face point) face] else []

/-- The messages (none or one) that the neighbor range check of one corner
reports. -/
def neighborPart (adjacency : Option (Nat → Nat)) (nFaces face point : Nat) : List Msg :=
  match adjacency with
  | none => []
  | some adj =>
    if neighborBad adj nFaces face point then
      [.invalidNeighbor (adjAt adj face point) face] else []

/-- The messages (none or one) that the degenerate / duplicate-neighbor tail
of the face loop body reports. -/
def tailPart (w : Nat) (indices : Nat → Nat) (adjacency : Option (Nat → Nat))
    (flags : Flags) (face : Nat) : List Msg :=
  if degenerate w indices face then
    (if flags.degenerate then [.duplicatePoint (degBadVertex w indices face) face] else [])
  else
    match adjacency with
    | some adj =>
      if flags.backfacing ∧ dupNeighbor adj face then
        [.duplicateNeighbor (dupNeighborVal adj face) face] else []
    | none => []

/-- Specification-side census of one corner's reportable range violations, in
check order (vertex index, then neighbor index). -/
def cornerViolations (w : Nat) (indices : Nat → Nat) (nFaces nVerts : Nat)
    (adjacency : Option (Nat → Nat)) (face point : Nat) : List Msg :=
  vertexPart w indices nVerts face point ++ neighborPart adjacency nFaces face point

/-- Specification-side census of one face's reportable violations, in check
order; one message per violation. -/
def faceViolations (w : Nat) (indices : Nat → Nat) (nFaces nVerts : Nat)
    (adjacency : Option (Nat → Nat)) (flags : Flags) (face : Nat) : List Msg :=
  vertexPart w indices nVerts face 0 ++
  (neighborPart adjacency nFaces face 0 ++
  (vertexPart w indices nVerts face 1 ++
  (neighborPart adjacency nFaces face 1 ++
  (vertexPart w indices nVerts face 2 ++
  (neighborPart adjacency nFaces face 2 ++
  tailPart w indices adjacency flags face)))))

/-- The two census groupings agree. -/
theorem faceViolations_eq_corners (w : Nat) (indices : Nat → Nat) (nFaces nVerts : Nat)
    (adjacency : Option (Nat → Nat)) (flags : Flags) (face : Nat) :
    faceViolations w indices nFaces nVerts adjacency flags face =
      cornerViolations w indices nFaces nVerts adjacency face 0 ++
      cornerViolations w indices nFaces nVerts adjacency face 1 ++
      cornerViolations w indices nFaces nVerts adjacency face 2 ++
      tailPart w indices adjacency flags face := by
  simp [faceViolations, cornerViolations, List.append_assoc]

/-- A checking step that, with a sink, never exits, appends exactly `e`, and
clears the result flag iff `e` is nonempty. -/
def Emits (c : VAcc → Except (HResult × List Msg) VAcc) (e : List Msg) : Prop :=
  ∀ st : VAcc, c st = .ok ((if e = [] then st.1 else false), st.2 ++ e)

/-- A checking step that, without a sink, leaves the state alone when it has
nothing to report and otherwise exits with `E_FAIL` at once. -/
def FailsFast (c : VAcc → Except (HResult × List Msg) VAcc) (e : List Msg) : Prop :=
  ∀ st : VAcc, c st = if e = [] then .ok st else .error (.E_FAIL, st.2)

theorem emits_seq {c : VAcc → Except (HResult × List Msg) VAcc}
    {k : VAcc → Except (HResult × List Msg) VAcc} {e e' : List Msg}
    (hc : Emits c e) (hk : Emits k e') :
    Emits (fun st => c st >>= k) (e ++ e') := by
  intro st
  show c st >>= k = _
  rw [hc st]
  show k _ = _
  rw [hk]
  rcases st with ⟨r, ms⟩
  rcases he : e with _ | ⟨m, rest⟩ <;> rcases he' : e' with _ | ⟨m', rest'⟩ <;> simp

theorem ffast_seq {c : VAcc → Except (HResult × List Msg) VAcc}
    {k : VAcc → Except (HResult × List Msg) VAcc} {e e' : List Msg}
    (hc : FailsFast c e) (hk : FailsFast k e') :
    FailsFast (fun st => c st >>= k) (e ++ e') := by
  intro st
  show c st >>= k = _
  rw [hc st]
  rcases he : e with _ | ⟨m, rest⟩
  · show k st = _
    rw [hk st]
    simp
  · subst he
    rfl

theorem emits_checkVertexIndex (w : Nat) (indices : Nat → Nat) (nVerts face point : Nat) :
    Emits (checkVertexIndex w indices nVerts true face point)
      (vertexPart w indices nVerts face point) := by
  intro ⟨r, ms⟩
  unfold checkVertexIndex vertexPart report
  by_cases h : vertexBad w indices nVerts face point
  · simp only [if_pos h]
    simp
  · simp only [if_neg h]
    simp

theorem emits_checkNeighborIndex (adjacency : Option (Nat → Nat)) (nFaces face point : Nat) :
    Emits (checkNeighborIndex adjacency nFaces true face point)
      (neighborPart adjacency nFaces face point) := by
  intro ⟨r, ms⟩
  unfold checkNeighborIndex neighborPart report
  cases adjacency with
  | none => simp
  | some adj =>
    by_cases h : neighborBad adj nFaces face point
    · simp only [if_pos h]
      simp
    · simp only [if_neg h]
      simp

theorem ffast_checkVertexIndex (w : Nat) (indices : Nat → Nat) (nVerts face point : Nat) :
    FailsFast (checkVertexIndex w indices nVerts false face point)
      (vertexPart w indices nVerts face point) := by
  intro ⟨r, ms⟩
  unfold checkVertexIndex vertexPart report
  by_cases h : vertexBad w indices nVerts face point
  · simp only [if_pos h]
    simp
  · simp only [if_neg h]
    simp

theorem ffast_checkNeighborIndex (adjacency : Option (Nat → Nat)) (nFaces face point : Nat) :
    FailsFast (checkNeighborIndex adjacency nFaces false face point)
      (neighborPart adjacency nFaces face point) := by
  intro ⟨r, ms⟩
  unfold checkNeighborIndex neighborPart report
  cases adjacency with
  | none => simp
  | some adj =>
    by_cases h : neighborBad adj nFaces face point
    · simp only [if_pos h]
      simp
    · simp only [if_neg h]
      simp

theorem emits_faceTail (w : Nat) (indices : Nat → Nat) (adjacency : Option (Nat → Nat))
    (flags : Flags) (face : Nat) :
    Emits (faceTail w indices adjacency flags true face)
      (tailPart w indices adjacency flags face) := by
  intro ⟨r, ms⟩
  unfold faceTail tailPart report
  by_cases hd : degenerate w indices face
  · simp only [if_pos hd]
    cases hf : flags.degenerate <;> simp [pure, Except.pure]
  · simp only [if_neg hd]
    cases adjacency with
    | none => simp [pure, Except.pure]
    | some adj =>
      by_cases hb : flags.backfacing ∧ dupNeighbor adj face
      · simp only [if_pos hb]
        simp
      · simp only [if_neg hb]
        simp [pure, Except.pure]

theorem ffast_faceTail (w : Nat) (indices : Nat → Nat) (adjacency : Option (Nat → Nat))
    (flags : Flags) (face : Nat) :
    FailsFast (faceTail w indices adjacency flags false face)
      (tailPart w indices adjacency flags face) := by
  intro ⟨r, ms⟩
  unfold faceTail tailPart report
  by_cases hd : degenerate w indices face
  · simp only [if_pos hd]
    cases hf : flags.degenerate <;> simp [pure, Except.pure]
  · simp only [if_neg hd]
    cases adjacency with
    | none => simp [pure, Except.pure]
    | some adj =>
      by_cases hb : flags.backfacing ∧ dupNeighbor adj face
      · simp only [if_pos hb]
        simp
      · simp only [if_neg hb]
        simp [pure, Except.pure]

/-- With a sink, the face loop body never exits early: it appends exactly the
face's violation census and clears the result flag iff it is nonempty. -/
theorem doFace_msgs (w : Nat) (indices : Nat → Nat) (nFaces nVerts : Nat)
    (adjacency : Option (Nat → Nat)) (flags : Flags) (face : Nat) (st : VAcc) :
    doFace w indices nFaces nVerts adjacency flags true face st =
      .ok ((if faceViolations w indices nFaces nVerts adjacency flags face = [] then st.1 else false),
        st.2 ++ faceViolations w indices nFaces nVerts adjacency flags face) := by
  have h :=
    emits_seq (emits_checkVertexIndex w indices nVerts face 0)
      (emits_seq (emits_checkNeighborIndex adjacency nFaces face 0)
        (emits_seq (emits_checkVertexIndex w indices nVerts face 1)
          (emits_seq (emits_checkNeighborIndex adjacency nFaces face 1)
            (emits_seq (emits_checkVertexIndex w indices nVerts face 2)
              (emits_seq (emits_checkNeighborIndex adjacency nFaces face 2)
                (emits_faceTail w indices adjacency flags face))))))
  exact h st

/-- Without a sink, the face loop body leaves the state alone when the face is
clean and exits with `E_FAIL` at the first violation. -/
theorem doFace_nomsgs (w : Nat) (indices : Nat → Nat) (nFaces nVerts : Nat)
    (adjacency : Option (Nat → Nat)) (flags : Flags) (face : Nat) (st : VAcc) :
    doFace w indices nFaces nVerts adjacency flags false face st =
      if faceViolations w indices nFaces nVerts adjacency flags face = [] then .ok st
      else .error (.E_FAIL, st.2) := by
  have h :=
    ffast_seq (ffast_checkVertexIndex w indices nVerts face 0)
      (ffast_seq (ffast_checkNeighborIndex adjacency nFaces face 0)
        (ffast_seq (ffast_checkVertexIndex w indices nVerts face 1)
          (ffast_seq (ffast_checkNeighborIndex adjacency nFaces face 1)
            (ffast_seq (ffast_checkVertexIndex w indices nVerts face 2)
              (ffast_seq (ffast_checkNeighborIndex adjacency nFaces face 2)
                (ffast_faceTail w indices adjacency flags face))))))
  exact h st

/-- Sink mode of the face loop: scans every face, appending each face's
violations in face order. -/
theorem loop_msgs (w : Nat) (indices : Nat → Nat) (nFaces nVerts : Nat)
    (adjacency : Option (Nat → Nat)) (flags : Flags) (fs : List Nat) (st : VAcc) :
    validateIndicesLoop w indices nFaces nVerts adjacency flags true fs st =
      .ok ((if fs.flatMap (faceViolations w indices nFaces nVerts adjacency flags) = [] then st.1 else false),
        st.2 ++ fs.flatMap (faceViolations w indices nFaces nVerts adjacency flags)) := by
  induction fs generalizing st with
  | nil => simp [validateIndicesLoop]
  | cons f fs ih =>
    simp only [validateIndicesLoop, doFace_msgs, ih, List.flatMap_cons]
    rcases h : faceViolations w indices nFaces nVerts adjacency flags f with _ | ⟨m, rest⟩
    · simp
    · simp

/-- Fail-fast mode of the face loop: succeeds iff every face is clean, else
exits with `E_FAIL` at the first violating face. -/
theorem loop_nomsgs (w : Nat) (indices : Nat → Nat) (nFaces nVerts : Nat)
    (adjacency : Option (Nat → Nat)) (flags : Flags) (fs : List Nat) (st : VAcc) :
    validateIndicesLoop w indices nFaces nVerts adjacency flags false fs st =
      if fs.flatMap (faceViolations w indices nFaces nVerts adjacency flags) = [] then .ok st
      else .error (.E_FAIL, st.2) := by
  induction fs generalizing st with
  | nil => simp [validateIndicesLoop]
  | cons f fs ih =>
    simp only [validateIndicesLoop, doFace_nomsgs, List.flatMap_cons]
    rcases h : faceViolations w indices nFaces nVerts adjacency flags f with _ | ⟨m, rest⟩
    · simp [ih]
    · simp

/-- `ValidateIndices` with a sink, when the backfacing precondition is met:
full scan, all messages, failure iff some violation exists. -/
theorem validateIndices_msgs (w : Nat) (indices : Nat → Nat) (nFaces nVerts : Nat)
    (adjacency : Option (Nat → Nat)) (flags : Flags)
    (hpre : flags.backfacing = true → adjacency.isSome = true) :
    validateIndices w indices nFaces nVerts adjacency flags true =
      ((if (List.range nFaces).flatMap (faceViolations w indices nFaces nVerts adjacency flags) = []
          then .S_OK else .E_FAIL),
        (List.range nFaces).flatMap (faceViolations w indices nFaces nVerts adjacency flags)) := by
  have hb : (flags.backfacing && adjacency.isNone) = false := by
    cases hf : flags.backfacing
    · simp
    · cases adjacency with
      | none => exact absurd (hpre hf) (by simp)
      | some a => simp
  unfold validateIndices
  rw [hb]
  simp only [Bool.false_eq_true, if_false]
  rw [loop_msgs]
  rcases h : (List.range nFaces).flatMap (faceViolations w indices nFaces nVerts adjacency flags)
    with _ | ⟨m, rest⟩ <;> simp

/-- `ValidateIndices` without a sink, when the backfacing precondition is met:
returns `E_FAIL` iff some violation exists, and never produces messages. -/
theorem validateIndices_nomsgs (w : Nat) (indices : Nat → Nat) (nFaces nVerts : Nat)
    (adjacency : Option (Nat → Nat)) (flags : Flags)
    (hpre : flags.backfacing = true → adjacency.isSome = true) :
    validateIndices w indices nFaces nVerts adjacency flags false =
      ((if (List.range nFaces).flatMap (faceViolations w indices nFaces nVerts adjacency flags) = []
          then .S_OK else .E_FAIL), []) := by
  have hb : (flags.backfacing && adjacency.isNone) = false := by
    cases hf : flags.backfacing
    · simp
    · cases adjacency with
      | none => exact absurd (hpre hf) (by simp)
      | some a => simp
  unfold validateIndices
  rw [hb]
  simp only [Bool.false_eq_true, if_false]
  rw [loop_nomsgs]
  rcases h : (List.range nFaces).flatMap (faceViolations w indices nFaces nVerts adjacency flags)
    with _ | ⟨m, rest⟩ <;> simp

/-- `ValidateIndices` when the backfacing check is requested without
adjacency: immediate `E_INVALIDARG`; with a sink, a message is appended. -/
theorem validateIndices_noadj (w : Nat) (indices : Nat → Nat) (nFaces nVerts : Nat)
    (flags : Flags) (hasMsgs : Bool) (hfb : flags.backfacing = true) :
    validateIndices w indices nFaces nVerts none flags hasMsgs =
      (.E_INVALIDARG, if hasMsgs then [Msg.missingAdjBackfacing] else []) := by
  unfold validateIndices
  rw [hfb]
  simp

/-- The face number a diagnostic line names, if any. -/
def msgFaceId : Msg → Option Nat
  | .invalidIndex _ g => some g
  | .invalidNeighbor _ g => some g
  | .duplicatePoint _ g => some g
  | .duplicateNeighbor _ g => some g
  | _ => none

/-- Recognizer for the invalid-vertex-index message of a given face. -/
def isInvalidIndexAt (face : Nat) : Msg → Bool
  | .invalidIndex _ g => g == face
  | _ => false

/-- Recognizer for the invalid-neighbor-index message of a given face. -/
def isInvalidNeighborAt (face : Nat) : Msg → Bool
  | .invalidNeighbor _ g => g == face
  | _ => false

/-- Every message in a face's census names that face. -/
theorem mem_faceViolations_faceId (w : Nat) (indices : Nat → Nat) (nFaces nVerts : Nat)
    (adjacency : Option (Nat → Nat)) (flags : Flags) (g : Nat) (m : Msg)
    (h : m ∈ faceViolations w indices nFaces nVerts adjacency flags g) :
    msgFaceId m = some g := by
  simp only [faceViolations, vertexPart, neighborPart, tailPart, List.mem_append] at h
  rcases h with h | h | h | h | h | h | h <;>
    · repeat' split at h
      all_goals simp_all [msgFaceId]

/-- Messages of a face other than `face` never count as `face`'s
invalid-index messages. -/
theorem countP_invIdx_ne (w : Nat) (indices : Nat → Nat) (nFaces nVerts : Nat)
    (adjacency : Option (Nat → Nat)) (flags : Flags) (face g : Nat) (hne : g ≠ face) :
    (faceViolations w indices nFaces nVerts adjacency flags g).countP (isInvalidIndexAt face)
      = 0 := by
  rw [List.countP_eq_zero]
  intro m hm
  have hf := mem_faceViolations_faceId w indices nFaces nVerts adjacency flags g m hm
  cases m <;> simp_all [msgFaceId, isInvalidIndexAt]

/-- Messages of a face other than `face` never count as `face`'s
invalid-neighbor messages. -/
theorem countP_invNbr_ne (w : Nat) (indices : Nat → Nat) (nFaces nVerts : Nat)
    (adjacency : Option (Nat → Nat)) (flags : Flags) (face g : Nat) (hne : g ≠ face) :
    (faceViolations w indices nFaces nVerts adjacency flags g).countP (isInvalidNeighborAt face)
      = 0 := by
  rw [List.countP_eq_zero]
  intro m hm
  have hf := mem_faceViolations_faceId w indices nFaces nVerts adjacency flags g m hm
  cases m <;> simp_all [msgFaceId, isInvalidNeighborAt]

/-- Counting over a concatenated census reduces to the one face that can
contribute. -/
theorem countP_flatMap_single (FV : Nat → List Msg) (p : Msg → Bool) (fs : List Nat)
    (face : Nat) (hmem : face ∈ fs) (hnd : fs.Nodup)
    (hz : ∀ g, g ≠ face → (FV g).countP p = 0) :
    (fs.flatMap FV).countP p = (FV face).countP p := by
  induction fs with
  | nil => cases hmem
  | cons f fs ih =>
    rw [List.flatMap_cons, List.countP_append]
    rcases List.mem_cons.mp hmem with rfl | hmem2
    · have hrest : (fs.flatMap FV).countP p = 0 := by
        rw [List.countP_eq_zero]
        intro m hm
        rcases List.mem_flatMap.mp hm with ⟨g, hg, hmg⟩
        have hgne : g ≠ face := fun he => (List.nodup_cons.mp hnd).1 (he ▸ hg)
        have := hz g hgne
        rw [List.countP_eq_zero] at this
        exact this m hmg
      rw [hrest]
      omega
    · have hfne : f ≠ face := fun he => (List.nodup_cons.mp hnd).1 (he ▸ hmem2)
      rw [hz f hfne, ih hmem2 (List.nodup_cons.mp hnd).2]
      omega

/-- A message that names `face` is in the full census iff it is in `face`'s
own census. -/
theorem mem_flatMap_face (w : Nat) (indices : Nat → Nat) (nFaces nVerts : Nat)
    (adjacency : Option (Nat → Nat)) (flags : Flags) (face : Nat) (m : Msg)
    (hm : msgFaceId m = some face) (hface : face < nFaces) :
    (m ∈ (List.range nFaces).flatMap (faceViolations w indices nFaces nVerts adjacency flags)) ↔
      m ∈ faceViolations w indices nFaces nVerts adjacency flags face := by
  simp only [List.mem_flatMap, List.mem_range]
  constructor
  · rintro ⟨g, _, hmem⟩
    have hg := mem_faceViolations_faceId w indices nFaces nVerts adjacency flags g m hmem
    rw [hm] at hg
    cases Option.some.inj hg
    exact hmem
  · intro h
    exact ⟨face, hface, h⟩

/-- Reduction of the neighbor check census when adjacency is present. -/
theorem neighborPart_some (a : Nat → Nat) (nFaces face point : Nat) :
    neighborPart (some a) nFaces face point =
      if neighborBad a nFaces face point then [Msg.invalidNeighbor (adjAt a face point) face]
      else [] := rfl

/-- Reduction of the neighbor check census when adjacency is absent. -/
theorem neighborPart_none (nFaces face point : Nat) :
    neighborPart none nFaces face point = [] := rfl

/-- What a corner's vertex-range check can put in the census. -/
theorem mem_vertexPart_shape {w : Nat} {indices : Nat → Nat} {nVerts face point : Nat}
    {m : Msg} (h : m ∈ vertexPart w indices nVerts face point) :
    vertexBad w indices nVerts face point ∧
      m = .invalidIndex (idxAt w indices face point) face := by
  unfold vertexPart at h
  split at h
  case isTrue hb =>
    simp at h
    exact ⟨hb, h⟩
  case isFalse => simp at h

/-- What a corner's neighbor-range check can put in the census. -/
theorem mem_neighborPart_shape {adjacency : Option (Nat → Nat)} {nFaces face point : Nat}
    {m : Msg} (h : m ∈ neighborPart adjacency nFaces face point) :
    ∃ a, adjacency = some a ∧ neighborBad a nFaces face point ∧
      m = .invalidNeighbor (adjAt a face point) face := by
  cases adjacency with
  | none => simp [neighborPart_none] at h
  | some a =>
    refine ⟨a, rfl, ?_⟩
    rw [neighborPart_some] at h
    split at h
    case isTrue hb =>
      simp at h
      exact ⟨hb, h⟩
    case isFalse => simp at h

/-- What the degenerate / duplicate-neighbor tail can put in the census. -/
theorem mem_tailPart_shape {w : Nat} {indices : Nat → Nat} {adjacency : Option (Nat → Nat)}
    {flags : Flags} {face : Nat} {m : Msg} (h : m ∈ tailPart w indices adjacency flags face) :
    (degenerate w indices face ∧ flags.degenerate = true ∧
        m = .duplicatePoint (degBadVertex w indices face) face) ∨
      (¬degenerate w indices face ∧
        ∃ a, adjacency = some a ∧ flags.backfacing = true ∧ dupNeighbor a face ∧
          m = .duplicateNeighbor (dupNeighborVal a face) face) := by
  unfold tailPart at h
  split at h
  case isTrue hdeg =>
    left
    split at h
    case isTrue hflag => simp at h; exact ⟨hdeg, hflag, by simp [h]⟩
    case isFalse => simp at h
  case isFalse hndeg =>
    right
    refine ⟨hndeg, ?_⟩
    split at h
    case h_1 a =>
      split at h
      case isTrue hcond => simp at h; exact ⟨a, rfl, hcond.1, hcond.2, by simp [h]⟩
      case isFalse => simp at h
    case h_2 => simp at h

/-- What a face's census can contain, by message shape. -/
theorem mem_faceViolations_shape {w : Nat} {indices : Nat → Nat} {nFaces nVerts : Nat}
    {adjacency : Option (Nat → Nat)} {flags : Flags} {face : Nat} {m : Msg}
    (h : m ∈ faceViolations w indices nFaces nVerts adjacency flags face) :
    (∃ point, point < 3 ∧ vertexBad w indices nVerts face point ∧
        m = .invalidIndex (idxAt w indices face point) face) ∨
      (∃ a point, adjacency = some a ∧ point < 3 ∧ neighborBad a nFaces face point ∧
        m = .invalidNeighbor (adjAt a face point) face) ∨
      (degenerate w indices face ∧ flags.degenerate = true ∧
        m = .duplicatePoint (degBadVertex w indices face) face) ∨
      (¬degenerate w indices face ∧
        ∃ a, adjacency = some a ∧ flags.backfacing = true ∧ dupNeighbor a face ∧
          m = .duplicateNeighbor (dupNeighborVal a face) face) := by
  simp only [faceViolations, List.mem_append] at h
  rcases h with h | h | h | h | h | h | h
  · exact Or.inl ⟨0, by omega, (mem_vertexPart_shape h).1, (mem_vertexPart_shape h).2⟩
  · obtain ⟨a, ha, hb, hm⟩ := mem_neighborPart_shape h
    exact Or.inr (Or.inl ⟨a, 0, ha, by omega, hb, hm⟩)
  · exact Or.inl ⟨1, by omega, (mem_vertexPart_shape h).1, (mem_vertexPart_shape h).2⟩
  · obtain ⟨a, ha, hb, hm⟩ := mem_neighborPart_shape h
    exact Or.inr (Or.inl ⟨a, 1, ha, by omega, hb, hm⟩)
  · exact Or.inl ⟨2, by omega, (mem_vertexPart_shape h).1, (mem_vertexPart_shape h).2⟩
  · obtain ⟨a, ha, hb, hm⟩ := mem_neighborPart_shape h
    exact Or.inr (Or.inl ⟨a, 2, ha, by omega, hb, hm⟩)
  · rcases mem_tailPart_shape h with h1 | h2
    · exact Or.inr (Or.inr (Or.inl h1))
    · exact Or.inr (Or.inr (Or.inr h2))

/-- The vertex-range check contributes one invalid-index message exactly when
its condition holds. -/
theorem countP_vertexPart (w : Nat) (indices : Nat → Nat) (nVerts face point : Nat) :
    (vertexPart w indices nVerts face point).countP (isInvalidIndexAt face) =
      if vertexBad w indices nVerts face point then 1 else 0 := by
  unfold vertexPart
  split_ifs with h <;> simp [isInvalidIndexAt, List.countP_cons]

/-- The neighbor-range check contributes no invalid-index message. -/
theorem countP_neighborPart_invIdx (adjacency : Option (Nat → Nat))
    (nFaces face face' point : Nat) :
    (neighborPart adjacency nFaces face point).countP (isInvalidIndexAt face') = 0 := by
  cases adjacency with
  | none => simp [neighborPart_none]
  | some a =>
    rw [neighborPart_some]
    split_ifs <;> simp [isInvalidIndexAt, List.countP_cons]

/-- The tail contributes no invalid-index message. -/
theorem countP_tailPart_invIdx (w : Nat) (indices : Nat → Nat)
    (adjacency : Option (Nat → Nat)) (flags : Flags) (face face' : Nat) :
    (tailPart w indices adjacency flags face).countP (isInvalidIndexAt face') = 0 := by
  rw [List.countP_eq_zero]
  intro m hm
  rcases mem_tailPart_shape hm with ⟨_, _, rfl⟩ | ⟨_, _, _, _, _, rfl⟩ <;>
    simp [isInvalidIndexAt]

/-- The neighbor-range check contributes one invalid-neighbor message exactly
when its condition holds. -/
theorem countP_neighborPart (adjacency : Option (Nat → Nat)) (nFaces face point : Nat) :
    (neighborPart adjacency nFaces face point).countP (isInvalidNeighborAt face) =
      match adjacency with
      | none => 0
      | some a => if neighborBad a nFaces face point then 1 else 0 := by
  cases adjacency with
  | none => simp [neighborPart_none]
  | some a =>
    rw [neighborPart_some]
    show List.countP _ _ = if neighborBad a nFaces face point then 1 else 0
    by_cases h : neighborBad a nFaces face point
    · rw [if_pos h, if_pos h]
      simp [isInvalidNeighborAt, List.countP_cons]
    · rw [if_neg h, if_neg h]
      simp

/-- The vertex-range check contributes no invalid-neighbor message. -/
theorem countP_vertexPart_invNbr (w : Nat) (indices : Nat → Nat)
    (nVerts face face' point : Nat) :
    (vertexPart w indices nVerts face point).countP (isInvalidNeighborAt face') = 0 := by
  unfold vertexPart
  split_ifs <;> simp [isInvalidNeighborAt, List.countP_cons]

/-- The tail contributes no invalid-neighbor message. -/
theorem countP_tailPart_invNbr (w : Nat) (indices : Nat → Nat)
    (adjacency : Option (Nat → Nat)) (flags : Flags) (face face' : Nat) :
    (tailPart w indices adjacency flags face).countP (isInvalidNeighborAt face') = 0 := by
  rw [List.countP_eq_zero]
  intro m hm
  rcases mem_tailPart_shape hm with ⟨_, _, rfl⟩ | ⟨_, _, _, _, _, rfl⟩ <;>
    simp [isInvalidNeighborAt]

/-- A face's own census counts one invalid-index message per bad corner. -/
theorem countP_faceViolations_invIdx (w : Nat) (indices : Nat → Nat) (nFaces nVerts : Nat)
    (adjacency : Option (Nat → Nat)) (flags : Flags) (face : Nat) :
    (faceViolations w indices nFaces nVerts adjacency flags face).countP (isInvalidIndexAt face) =
      (if vertexBad w indices nVerts face 0 then 1 else 0) +
        ((if vertexBad w indices nVerts face 1 then 1 else 0) +
          (if vertexBad w indices nVerts face 2 then 1 else 0)) := by
  unfold faceViolations
  simp only [List.countP_append, countP_vertexPart, countP_neighborPart_invIdx,
    countP_tailPart_invIdx, Nat.add_zero, Nat.zero_add]

/-- A face's own census counts one invalid-neighbor message per bad corner. -/
theorem countP_faceViolations_invNbr (w : Nat) (indices : Nat → Nat) (nFaces nVerts : Nat)
    (adjacency : Option (Nat → Nat)) (flags : Flags) (face : Nat) :
    (faceViolations w indices nFaces nVerts adjacency flags face).countP (isInvalidNeighborAt face) =
      match adjacency with
      | none => 0
      | some a =>
        (if neighborBad a nFaces face 0 then 1 else 0) +
          ((if neighborBad a nFaces face 1 then 1 else 0) +
            (if neighborBad a nFaces face 2 then 1 else 0)) := by
  unfold faceViolations
  simp only [List.countP_append, countP_neighborPart, countP_vertexPart_invNbr,
    countP_tailPart_invNbr, Nat.add_zero, Nat.zero_add]
  cases adjacency <;> simp

/-- Length of a filtered three-element corner scan, as a sum of indicators. -/
theorem length_filter_range3 (q : Nat → Prop) [DecidablePred q] :
    ((List.range 3).filter fun point => decide (q point)).length =
      (if q 0 then 1 else 0) + ((if q 1 then 1 else 0) + (if q 2 then 1 else 0)) := by
  have h3 : List.range 3 = [0, 1, 2] := rfl
  rw [h3]
  by_cases h0 : q 0 <;> by_cases h1 : q 1 <;> by_cases h2 : q 2 <;>
    simp [List.filter_cons, h0, h1, h2]

/-- Pointwise agreement of two optional buffers below a position bound. -/
def optAgree : Option (Nat → Nat) → Option (Nat → Nat) → Nat → Prop
  | none, none, _ => True
  | some a, some a2, n => ∀ k, k < n → a2 k = a k
  | _, _, _ => False

/-- A face's census depends only on that face's buffer entries. -/
theorem faceViolations_congr (w : Nat) (indices indices2 : Nat → Nat)
    (nFaces nVerts : Nat) (adjacency adjacency2 : Option (Nat → Nat)) (flags : Flags)
    (face n : Nat) (hn : face * 3 + 3 ≤ n)
    (hidx : ∀ k, k < n → indices2 k = indices k)
    (hadj : optAgree adjacency adjacency2 n) :
    faceViolations w indices2 nFaces nVerts adjacency2 flags face =
      faceViolations w indices nFaces nVerts adjacency flags face := by
  have h0 : idxAt w indices2 face 0 = idxAt w indices face 0 := by
    unfold idxAt; rw [hidx _ (by omega)]
  have h1 : idxAt w indices2 face 1 = idxAt w indices face 1 := by
    unfold idxAt; rw [hidx _ (by omega)]
  have h2 : idxAt w indices2 face 2 = idxAt w indices face 2 := by
    unfold idxAt; rw [hidx _ (by omega)]
  cases adjacency with
  | none =>
    cases adjacency2 with
    | none =>
      simp only [faceViolations, vertexPart, neighborPart, tailPart, vertexBad, degenerate,
        degBadVertex, h0, h1, h2]
    | some a2 => exact absurd hadj (by simp [optAgree])
  | some a =>
    cases adjacency2 with
    | none => exact absurd hadj (by simp [optAgree])
    | some a2 =>
      have hadj2 : ∀ k, k < n → a2 k = a k := hadj
      have ha0 : adjAt a2 face 0 = adjAt a face 0 := by
        unfold adjAt; rw [hadj2 _ (by omega)]
      have ha1 : adjAt a2 face 1 = adjAt a face 1 := by
        unfold adjAt; rw [hadj2 _ (by omega)]
      have ha2 : adjAt a2 face 2 = adjAt a face 2 := by
        unfold adjAt; rw [hadj2 _ (by omega)]
      simp only [faceViolations, vertexPart, neighborPart, tailPart, vertexBad, neighborBad,
        degenerate, degBadVertex, dupNeighbor, dupNeighborVal, h0, h1, h2, ha0, ha1, ha2]

/-- C1: with no diagnostic sink, `ValidateIndices` returns failure at the
first violation (in face order, checks in source order) without examining
later faces — its fail-fast verdict is unchanged under arbitrary modification
of the buffers beyond the first violating face; with a sink it scans all
faces, appends one message per violation in scan order, and fails at the end
iff at least one violation was found.  (The backfacing-without-adjacency
precondition failure, a separate `E_INVALIDARG` path, is excluded by
hypothesis; it is the subject of C3.) -/
theorem validateIndices_reporting_policy (w : Nat) (indices : Nat → Nat)
    (nFaces nVerts : Nat) (adjacency : Option (Nat → Nat)) (flags : Flags)
    (hpre : flags.backfacing = true → adjacency.isSome = true) :
    (validateIndices w indices nFaces nVerts adjacency flags true =
      ((if (List.range nFaces).flatMap (faceViolations w indices nFaces nVerts adjacency flags) = []
          then .S_OK else .E_FAIL),
        (List.range nFaces).flatMap (faceViolations w indices nFaces nVerts adjacency flags)))
    ∧ (validateIndices w indices nFaces nVerts adjacency flags false =
      ((if (List.range nFaces).flatMap (faceViolations w indices nFaces nVerts adjacency flags) = []
          then .S_OK else .E_FAIL), []))
    ∧ (∀ face, face < nFaces →
        faceViolations w indices nFaces nVerts adjacency flags face ≠ [] →
        ∀ indices2 adjacency2,
          (∀ k, k < 3 * (face + 1) → indices2 k = indices k) →
          optAgree adjacency adjacency2 (3 * (face + 1)) →
          validateIndices w indices2 nFaces nVerts adjacency2 flags false =
            validateIndices w indices nFaces nVerts adjacency flags false) := by
  refine ⟨validateIndices_msgs w indices nFaces nVerts adjacency flags hpre,
    validateIndices_nomsgs w indices nFaces nVerts adjacency flags hpre, ?_⟩
  intro face hface hne indices2 adjacency2 hidx hadj
  have hpre2 : flags.backfacing = true → adjacency2.isSome = true := by
    intro hb
    have h1 := hpre hb
    cases adjacency <;> cases adjacency2 <;> simp_all [optAgree]
  rw [validateIndices_nomsgs w indices2 nFaces nVerts adjacency2 flags hpre2,
    validateIndices_nomsgs w indices nFaces nVerts adjacency flags hpre]
  have hfv : faceViolations w indices2 nFaces nVerts adjacency2 flags face =
      faceViolations w indices nFaces nVerts adjacency flags face :=
    faceViolations_congr w indices indices2 nFaces nVerts adjacency adjacency2 flags face
      (3 * (face + 1)) (by omega) hidx hadj
  have hne2 : faceViolations w indices2 nFaces nVerts adjacency2 flags face ≠ [] := by
    rw [hfv]; exact hne
  have hmem : ∀ (idxf : Nat → Nat) (adjf : Option (Nat → Nat)),
      faceViolations w idxf nFaces nVerts adjf flags face ≠ [] →
      (List.range nFaces).flatMap (faceViolations w idxf nFaces nVerts adjf flags) ≠ [] := by
    intro idxf adjf hnef
    rcases List.exists_mem_of_ne_nil _ hnef with ⟨m, hm⟩
    exact List.ne_nil_of_mem (List.mem_flatMap.mpr ⟨face, List.mem_range.mpr hface, hm⟩)
  rw [if_neg (hmem indices2 adjacency2 hne2), if_neg (hmem indices adjacency hne)]

/-- Witness for C1 at a concrete input: one face with vertex index 5 against
one vertex slot, no sink: fail-fast `E_FAIL` with no messages. -/
theorem validateIndices_reporting_policy_witness :
    validateIndices 32 (fun _ => 5) 1 1 none ⟨false, false, false⟩ false = (.E_FAIL, []) := by
  have h := (validateIndices_reporting_policy 32 (fun _ => 5) 1 1 none ⟨false, false, false⟩
    (by decide)).2.1
  rw [h]
  decide

/-- C2: with a sink (and the backfacing precondition satisfied), the scan
reports one invalid-index message for face `face` per corner whose vertex
index is `≥ nVerts` and not the all-bits-set sentinel, and — when adjacency
is present — one invalid-neighbor message per corner whose neighbor index is
`≥ nFaces` and not `UNUSED32`; the sentinel is accepted in both cases. -/
theorem validateIndices_range_checks (w : Nat) (indices : Nat → Nat) (nFaces nVerts : Nat)
    (adjacency : Option (Nat → Nat)) (flags : Flags) (face : Nat)
    (hpre : flags.backfacing = true → adjacency.isSome = true) (hface : face < nFaces) :
    ((validateIndices w indices nFaces nVerts adjacency flags true).2.countP
        (isInvalidIndexAt face) =
      ((List.range 3).filter fun point =>
        decide (vertexBad w indices nVerts face point)).length)
    ∧ ((validateIndices w indices nFaces nVerts adjacency flags true).2.countP
        (isInvalidNeighborAt face) =
      match adjacency with
      | none => 0
      | some a =>
        ((List.range 3).filter fun point => decide (neighborBad a nFaces face point)).length) := by
  rw [validateIndices_msgs w indices nFaces nVerts adjacency flags hpre]
  constructor
  · show ((List.range nFaces).flatMap _).countP _ = _
    rw [countP_flatMap_single _ _ _ face (List.mem_range.mpr hface) (List.nodup_range nFaces)
      (fun g hg => countP_invIdx_ne w indices nFaces nVerts adjacency flags face g hg)]
    rw [countP_faceViolations_invIdx,
      length_filter_range3 (fun point => vertexBad w indices nVerts face point)]
  · show ((List.range nFaces).flatMap _).countP _ = _
    rw [countP_flatMap_single _ _ _ face (List.mem_range.mpr hface) (List.nodup_range nFaces)
      (fun g hg => countP_invNbr_ne w indices nFaces nVerts adjacency flags face g hg)]
    rw [countP_faceViolations_invNbr]
    cases adjacency with
    | none => rfl
    | some a =>
      show (if neighborBad a nFaces face 0 then 1 else 0) +
          ((if neighborBad a nFaces face 1 then 1 else 0) +
            (if neighborBad a nFaces face 2 then 1 else 0)) =
        ((List.range 3).filter fun point => decide (neighborBad a nFaces face point)).length
      rw [length_filter_range3 (fun point => neighborBad a nFaces face point)]

/-- Witness for C2 at a concrete input: one face (0,1,2) against two vertex
slots: exactly one invalid-index message (for corner 2). -/
theorem validateIndices_range_checks_witness :
    (0 < 1) ∧
      (validateIndices 32 (fun k => k) 1 2 none ⟨false, false, false⟩ true).2.countP
          (isInvalidIndexAt 0) =
        ((List.range 3).filter fun point => decide (vertexBad 32 (fun k => k) 2 0 point)).length :=
  ⟨by decide,
    (validateIndices_range_checks 32 (fun k => k) 1 2 none ⟨false, false, false⟩ 0
      (by decide) (by decide)).1⟩

/-- The degenerate-face message is in a face's census iff the face is
degenerate and the degenerate flag is set, and then it names the repeated
vertex chosen by lines 91-97. -/
theorem dupPoint_mem_fv_iff (w : Nat) (indices : Nat → Nat) (nFaces nVerts : Nat)
    (adjacency : Option (Nat → Nat)) (flags : Flags) (face b : Nat) :
    Msg.duplicatePoint b face ∈ faceViolations w indices nFaces nVerts adjacency flags face ↔
      (degenerate w indices face ∧ flags.degenerate = true ∧
        b = degBadVertex w indices face) := by
  constructor
  · intro h
    rcases mem_faceViolations_shape h with ⟨p, _, _, he⟩ | ⟨a, p, _, _, _, he⟩ |
      ⟨hd, hf, he⟩ | ⟨_, a, _, _, _, he⟩
    · simp at he
    · simp at he
    · simp at he
      exact ⟨hd, hf, he⟩
    · simp at he
  · rintro ⟨hd, hf, rfl⟩
    simp only [faceViolations, List.mem_append]
    refine Or.inr (Or.inr (Or.inr (Or.inr (Or.inr (Or.inr ?_)))))
    unfold tailPart
    rw [if_pos hd]
    simp [hf]

/-- A degenerate face's census never contains a duplicate-neighbor message:
the check is skipped. -/
theorem dupNeighbor_not_mem_fv (w : Nat) (indices : Nat → Nat) (nFaces nVerts : Nat)
    (adjacency : Option (Nat → Nat)) (flags : Flags) (face b : Nat)
    (hd : degenerate w indices face) :
    Msg.duplicateNeighbor b face ∉ faceViolations w indices nFaces nVerts adjacency flags face := by
  intro h
  rcases mem_faceViolations_shape h with ⟨p, _, _, he⟩ | ⟨a, p, _, _, _, he⟩ |
    ⟨_, _, he⟩ | ⟨hnd, _, _, _, _, he⟩
  · simp at he
  · simp at he
  · simp at he
  · exact hnd hd

/-- The vertex reported for a degenerate face coincides with two of the
face's three vertex indices. -/
theorem degBadVertex_repeats (w : Nat) (indices : Nat → Nat) (face : Nat)
    (hd : degenerate w indices face) :
    (degBadVertex w indices face = idxAt w indices face 0 ∧
      degBadVertex w indices face = idxAt w indices face 1) ∨
    (degBadVertex w indices face = idxAt w indices face 0 ∧
      degBadVertex w indices face = idxAt w indices face 2) ∨
    (degBadVertex w indices face = idxAt w indices face 1 ∧
      degBadVertex w indices face = idxAt w indices face 2) := by
  unfold degBadVertex
  by_cases h01 : idxAt w indices face 0 = idxAt w indices face 1
  · rw [if_pos h01]
    exact Or.inl ⟨rfl, h01⟩
  · rw [if_neg h01]
    by_cases h12 : idxAt w indices face 1 = idxAt w indices face 2
    · rw [if_pos h12]
      exact Or.inr (Or.inr ⟨h12.symm, rfl⟩)
    · rw [if_neg h12]
      rcases hd with h | h | h
      · exact absurd h h01
      · exact Or.inr (Or.inl ⟨rfl, h⟩)
      · exact absurd h h12

/-- C4: a face is classified degenerate iff two of its three vertex indices
are equal; with a sink, the degenerate message for a face appears iff the
face is degenerate and the degenerate flag is set; a reported degenerate face
makes the whole validation fail in both modes and the message names a
repeated vertex; and a degenerate face never yields a duplicate-neighbor
message (that check is skipped). -/
theorem validateIndices_degenerate_policy (w : Nat) (indices : Nat → Nat)
    (nFaces nVerts : Nat) (adjacency : Option (Nat → Nat)) (flags : Flags) (face : Nat)
    (hpre : flags.backfacing = true → adjacency.isSome = true) (hface : face < nFaces) :
    ((∃ b, Msg.duplicatePoint b face ∈
        (validateIndices w indices nFaces nVerts adjacency flags true).2) ↔
      ((idxAt w indices face 0 = idxAt w indices face 1 ∨
        idxAt w indices face 0 = idxAt w indices face 2 ∨
        idxAt w indices face 1 = idxAt w indices face 2) ∧ flags.degenerate = true))
    ∧ (degenerate w indices face → flags.degenerate = true →
        (validateIndices w indices nFaces nVerts adjacency flags true).1 = .E_FAIL ∧
        (validateIndices w indices nFaces nVerts adjacency flags false).1 = .E_FAIL ∧
        Msg.duplicatePoint (degBadVertex w indices face) face ∈
          (validateIndices w indices nFaces nVerts adjacency flags true).2 ∧
        ((degBadVertex w indices face = idxAt w indices face 0 ∧
           degBadVertex w indices face = idxAt w indices face 1) ∨
         (degBadVertex w indices face = idxAt w indices face 0 ∧
           degBadVertex w indices face = idxAt w indices face 2) ∨
         (degBadVertex w indices face = idxAt w indices face 1 ∧
           degBadVertex w indices face = idxAt w indices face 2)))
    ∧ (degenerate w indices face →
        ∀ b, Msg.duplicateNeighbor b face ∉
          (validateIndices w indices nFaces nVerts adjacency flags true).2) := by
  have hmsgs := validateIndices_msgs w indices nFaces nVerts adjacency flags hpre
  have h2 : (validateIndices w indices nFaces nVerts adjacency flags true).2 =
      (List.range nFaces).flatMap (faceViolations w indices nFaces nVerts adjacency flags) := by
    rw [hmsgs]
  have h1 : (validateIndices w indices nFaces nVerts adjacency flags true).1 =
      (if (List.range nFaces).flatMap (faceViolations w indices nFaces nVerts adjacency flags) = []
        then .S_OK else .E_FAIL) := by
    rw [hmsgs]
  have h1f : (validateIndices w indices nFaces nVerts adjacency flags false).1 =
      (if (List.range nFaces).flatMap (faceViolations w indices nFaces nVerts adjacency flags) = []
        then .S_OK else .E_FAIL) := by
    rw [validateIndices_nomsgs w indices nFaces nVerts adjacency flags hpre]
  refine ⟨?_, ?_, ?_⟩
  · constructor
    · rintro ⟨b, hb⟩
      rw [h2, mem_flatMap_face w indices nFaces nVerts adjacency flags face _
        (by simp [msgFaceId]) hface] at hb
      have hiff := (dupPoint_mem_fv_iff w indices nFaces nVerts adjacency flags face b).mp hb
      exact ⟨hiff.1, hiff.2.1⟩
    · rintro ⟨hd, hf⟩
      refine ⟨degBadVertex w indices face, ?_⟩
      rw [h2, mem_flatMap_face w indices nFaces nVerts adjacency flags face _
        (by simp [msgFaceId]) hface]
      exact (dupPoint_mem_fv_iff w indices nFaces nVerts adjacency flags face _).mpr
        ⟨hd, hf, rfl⟩
  · intro hd hf
    have hmem : Msg.duplicatePoint (degBadVertex w indices face) face ∈
        (List.range nFaces).flatMap (faceViolations w indices nFaces nVerts adjacency flags) := by
      rw [mem_flatMap_face w indices nFaces nVerts adjacency flags face _
        (by simp [msgFaceId]) hface]
      exact (dupPoint_mem_fv_iff w indices nFaces nVerts adjacency flags face _).mpr
        ⟨hd, hf, rfl⟩
    have hnn : (List.range nFaces).flatMap
        (faceViolations w indices nFaces nVerts adjacency flags) ≠ [] :=
      List.ne_nil_of_mem hmem
    refine ⟨by rw [h1, if_neg hnn], by rw [h1f, if_neg hnn], by rw [h2]; exact hmem,
      degBadVertex_repeats w indices face hd⟩
  · intro hd b hb
    rw [h2, mem_flatMap_face w indices nFaces nVerts adjacency flags face _
      (by simp [msgFaceId]) hface] at hb
    exact dupNeighbor_not_mem_fv w indices nFaces nVerts adjacency flags face b hd hb

/-- Witness for C4 at a concrete input: the degenerate face (0,0,0) with the
degenerate flag set fails validation. -/
theorem validateIndices_degenerate_policy_witness :
    (0 < 1) ∧ (validateIndices 32 (fun _ => 0) 1 1 none ⟨false, false, true⟩ true).1 = .E_FAIL :=
  ⟨by decide,
    ((validateIndices_degenerate_policy 32 (fun _ => 0) 1 1 none ⟨false, false, true⟩ 0
      (by decide) (by decide)).2.1 (by decide) rfl).1⟩

/-- Modelled from the spec: the orbit iterator of DirectXMeshP.h is not among
the sources; spec section 4.2 describes it.  `findPoint` is its "locate which
of the face's 3 corners holds the pivot vertex" step; `3` encodes "not
found", which the detector's `curPoint > 2` guard treats as fatal. -/
def findPoint (w : Nat) (indices : Nat → Nat) (face vert : Nat) : Nat :=
  if idxAt w indices face 0 = vert then 0
  else if idxAt w indices face 1 = vert then 1
  else if idxAt w indices face 2 = vert then 2
  else 3

/-- Modelled from the spec (section 4.2): the adjacency slot crossed when
stepping around the pivot from corner `point` of `face`: the edge leaving the
pivot corner when walking counter-clockwise, the edge entering it (slot
`(point+2) % 3`) when walking clockwise. -/
def orbitNext (adj : Nat → Nat) (face point : Nat) (ccw : Bool) : Nat :=
  adjAt adj face (if ccw then point else (point + 2) % 3)

/-- How one directional orbit pass ended. -/
inductive OrbitEnd where
  | boundary
  | closed
  | badPoint
  | fuelOut
deriving DecidableEq

/-- Modelled from the spec (section 4.2): one directional pass of the orbit
walk, returning the (face, corner) pairs strictly after the given position
and how the pass ended: at a fan boundary (sentinel neighbor), back at the
starting face (closed fan), at a corner value above 2 (the neighbor does not
contain the pivot: the fatal inconsistency of the spec's failure mode; the
bad pair itself is emitted first), or out of fuel (the spec asserts the walk
terminates; fuel only makes the model total). -/
def orbitDir (w : Nat) (indices adj : Nat → Nat) (startFace pivot : Nat) (ccw : Bool) :
    Nat → Nat → Nat → List (Nat × Nat) × OrbitEnd
  | 0, _, _ => ([], .fuelOut)
  | fuel + 1, face, point =>
    if 2 < point then ([], .badPoint)
    else
      let nbr := orbitNext adj face point ccw
      if nbr = UNUSED32 then ([], .boundary)
      else if nbr = startFace then ([], .closed)
      else
        let p := findPoint w indices nbr pivot
        let rest := orbitDir w indices adj startFace pivot ccw fuel nbr p
        ((nbr, p) :: rest.1, rest.2)

/-- Modelled from the spec (section 4.2, the "all" direction the detector
requests): the full orbit of `pivot` starting at `startFace`: the starting
corner itself, the counter-clockwise pass, and — only when that pass ended at
a boundary — the clockwise pass restarted from the starting face. -/
def orbitList (w : Nat) (indices adj : Nat → Nat) (nFaces startFace pivot : Nat) :
    List (Nat × Nat) :=
  let startPoint := findPoint w indices startFace pivot
  let fwd := orbitDir w indices adj startFace pivot true (3 * nFaces + 3) startFace startPoint
  (startFace, startPoint) ::
    (fwd.1 ++
      match fwd.2 with
      | .boundary =>
        (orbitDir w indices adj startFace pivot false (3 * nFaces + 3) startFace startPoint).1
      | _ => [])

/-- Pointwise update of a table modelled as a total function. -/
def upd {a : Type} (f : Nat → a) (i : Nat) (v : a) : Nat → a :=
  fun j => if j = i then v else f j

/-- Working state of `ValidateNoBowties` (lines 159-176): the per-corner
`faceSeen` table, the per-vertex `faceIds` (first claiming fan's face, an
`index_t`, initialized all-bits-set), `faceUsing` (most recent face, an
`index_t`, initialized 0) and `vertexBowtie` (already-reported bit) tables,
the running `result` flag and the appended messages.  Tables are total
functions, as the C++ raw pointers impose no bounds; `accesses` additionally
records every position at which the three `nVerts`-sized per-vertex tables
are read or written, so in-bounds claims about the scratch allocation can be
stated. -/
structure BState where
  faceSeen : Nat → Bool
  faceIds : Nat → Nat
  faceUsing : Nat → Nat
  vertexBowtie : Nat → Bool
  result : Bool
  msgs : List Msg
  accesses : List Nat

/-- The memset initialization of lines 169-172. -/
def initBState (w : Nat) : BState :=
  { faceSeen := fun _ => false
    faceIds := fun _ => sentinel w
    faceUsing := fun _ => 0
    vertexBowtie := fun _ => false
    result := true
    msgs := []
    accesses := [] }

/-- Lines 205-246: processing of one (face, corner) pair the orbit yields:
the two fatal range guards, the `faceSeen` marking, and the fan-ownership /
bowtie bookkeeping on the vertex the corner references. -/
def processEntry (w : Nat) (indices : Nat → Nat) (nFaces : Nat) (hasMsgs : Bool)
    (face : Nat) (s : BState) (entry : Nat × Nat) :
    Except (HResult × List Msg × List Nat) BState :=
  if nFaces ≤ entry.1 then .error (.E_FAIL, s.msgs, s.accesses)
  else if 2 < entry.2 then .error (.E_FAIL, s.msgs, s.accesses)
  else if s.faceIds (idxAt w indices entry.1 entry.2) = sentinel w then
    .ok { s with
            faceSeen := upd s.faceSeen (entry.1 * 3 + entry.2) true
            accesses := s.accesses ++ [idxAt w indices entry.1 entry.2]
            faceIds := upd s.faceIds (idxAt w indices entry.1 entry.2) (face % 2 ^ w)
            faceUsing := upd s.faceUsing (idxAt w indices entry.1 entry.2) (entry.1 % 2 ^ w) }
  else if s.faceIds (idxAt w indices entry.1 entry.2) ≠ face % 2 ^ w ∧
      s.vertexBowtie (idxAt w indices entry.1 entry.2) = false then
    if hasMsgs = false then
      .error (.E_FAIL, s.msgs, s.accesses ++ [idxAt w indices entry.1 entry.2])
    else
      .ok { s with
              faceSeen := upd s.faceSeen (entry.1 * 3 + entry.2) true
              accesses := s.accesses ++ [idxAt w indices entry.1 entry.2]
              vertexBowtie := upd s.vertexBowtie (idxAt w indices entry.1 entry.2) true
              result := false
              msgs := (if s.result then s.msgs ++ [Msg.bowtieHeader] else s.msgs) ++
                [Msg.bowtie (idxAt w indices entry.1 entry.2) entry.1
                  (s.faceUsing (idxAt w indices entry.1 entry.2))] }
  else
    .ok { s with
            faceSeen := upd s.faceSeen (entry.1 * 3 + entry.2) true
            accesses := s.accesses ++ [idxAt w indices entry.1 entry.2] }

/-- The `while (!ovi.done())` loop of lines 205-246, over the orbit's pairs. -/
def processEntries (w : Nat) (indices : Nat → Nat) (nFaces : Nat) (hasMsgs : Bool)
    (face : Nat) : List (Nat × Nat) → BState → Except (HResult × List Msg × List Nat) BState
  | [], s => .ok s
  | e :: es, s =>
    match processEntry w indices nFaces hasMsgs face s e with
    | .error err => .error err
    | .ok s2 => processEntries w indices nFaces hasMsgs face es s2

/-- Lines 195-247: one corner of the outer face: skip it if already seen,
else mark it seen and process the whole orbit of its vertex. -/
def doPoint (w : Nat) (indices : Nat → Nat) (nFaces : Nat) (adj : Nat → Nat)
    (hasMsgs : Bool) (face point : Nat) (s : BState) :
    Except (HResult × List Msg × List Nat) BState :=
  if s.faceSeen (face * 3 + point) = true then .ok s
  else
    processEntries w indices nFaces hasMsgs face
      (orbitList w indices adj nFaces face (idxAt w indices face point))
      { s with faceSeen := upd s.faceSeen (face * 3 + point) true }

/-- Lines 178-248, body of the detector's face loop: degenerate faces have
all three corners marked seen and are skipped; otherwise the three corners
are processed in order. -/
def doBowtieFace (w : Nat) (indices : Nat → Nat) (nFaces : Nat) (adj : Nat → Nat)
    (hasMsgs : Bool) (face : Nat) (s : BState) :
    Except (HResult × List Msg × List Nat) BState :=
  if degenerate w indices face then
    .ok { s with
            faceSeen := upd (upd (upd s.faceSeen (face * 3) true) (face * 3 + 1) true)
              (face * 3 + 2) true }
  else do
    let s ← doPoint w indices nFaces adj hasMsgs face 0 s
    let s ← doPoint w indices nFaces adj hasMsgs face 1 s
    doPoint w indices nFaces adj hasMsgs face 2 s

/-- The detector's face loop, over an explicit list of face ids. -/
def bowtieLoop (w : Nat) (indices : Nat → Nat) (nFaces : Nat) (adj : Nat → Nat)
    (hasMsgs : Bool) : List Nat → BState → Except (HResult × List Msg × List Nat) BState
  | [], s => .ok s
  | face :: faces, s =>
    match doBowtieFace w indices nFaces adj hasMsgs face s with
    | .error err => .error err
    | .ok s2 => bowtieLoop w indices nFaces adj hasMsgs faces s2

/-- `ValidateNoBowties` (lines 147-251), with the orbit iterator modelled
from the spec.  Returns the HRESULT, the messages appended, and the recorded
per-vertex-table access positions.  The `new (std::nothrow)` scratch
allocation of lines 159-162 is assumed to succeed, so the `E_OUTOFMEMORY`
outcome is not modelled; `nVerts` only sizes that allocation. -/
def validateNoBowties (w : Nat) (indices : Nat → Nat) (nFaces nVerts : Nat)
    (adjacency : Option (Nat → Nat)) (hasMsgs : Bool) :
    HResult × List Msg × List Nat :=
  match adjacency with
  | none => (.E_INVALIDARG, (if hasMsgs then [Msg.missingAdjBowties] else []), [])
  | some adj =>
    match bowtieLoop w indices nFaces adj hasMsgs (List.range nFaces) (initBState w) with
    | .error (hr, msgs, accesses) => (hr, msgs, accesses)
    | .ok s => ((if s.result then .S_OK else .E_FAIL), s.msgs, s.accesses)

/-- `Validate` (both entry points, lines 264-317, which differ only in the
index width `w`): the argument checks, the `uint64_t(nFaces) * 3` overflow
check (`size_t` taken as 64 bits, so the product wraps modulo `2^64`), the
sink clearing, `ValidateIndices`, then `ValidateNoBowties` when the bowtie
flag is set.  `msgs0` is the caller's sink together with its prior contents
(`none` when no sink is passed); the result pairs the HRESULT with the sink's
final contents. -/
def validate (w : Nat) (indices : Option (Nat → Nat)) (nFaces nVerts : Nat)
    (adjacency : Option (Nat → Nat)) (flags : Flags) (msgs0 : Option (List Msg)) :
    HResult × Option (List Msg) :=
  match indices with
  | none => (.E_INVALIDARG, msgs0)
  | some idx =>
    if nFaces = 0 ∨ nVerts = 0 then (.E_INVALIDARG, msgs0)
    else if 4294967295 < nFaces % 2 ^ 64 * 3 % 2 ^ 64 then (.E_ARITHMETIC_OVERFLOW, msgs0)
    else if FAILED (validateIndices w idx nFaces nVerts adjacency flags msgs0.isSome).1 = true then
      ((validateIndices w idx nFaces nVerts adjacency flags msgs0.isSome).1,
        msgs0.map fun _ => (validateIndices w idx nFaces nVerts adjacency flags msgs0.isSome).2)
    else if flags.bowties = true then
      ((if FAILED (validateNoBowties w idx nFaces nVerts adjacency msgs0.isSome).1 = true
          then (validateNoBowties w idx nFaces nVerts adjacency msgs0.isSome).1 else .S_OK),
        msgs0.map fun _ =>
          (validateIndices w idx nFaces nVerts adjacency flags msgs0.isSome).2 ++
            (validateNoBowties w idx nFaces nVerts adjacency msgs0.isSome).2.1)
    else (.S_OK, msgs0.map fun _ => (validateIndices w idx nFaces nVerts adjacency flags msgs0.isSome).2)

/-- Number of bowtie diagnostics naming vertex `j` in a message list. -/
def countB (j : Nat) (msgs : List Msg) : Nat :=
  msgs.countP fun m =>
    match m with
    | .bowtie v _ _ => v == j
    | _ => false

theorem countB_append (j : Nat) (l1 l2 : List Msg) :
    countB j (l1 ++ l2) = countB j l1 + countB j l2 :=
  List.countP_append _ l1 l2

theorem countB_header (j : Nat) : countB j [Msg.bowtieHeader] = 0 := rfl

theorem countB_bowtie (j v c u : Nat) :
    countB j [Msg.bowtie v c u] = if v = j then 1 else 0 := by
  unfold countB
  by_cases h : v = j <;> simp [List.countP_cons, h]

/-- The per-vertex invariant behind the flagged bit: an unflagged vertex has
no bowtie diagnostic yet, and no vertex ever has more than one. -/
def BInv (j : Nat) (s : BState) : Prop :=
  (s.vertexBowtie j = false → countB j s.msgs = 0) ∧ countB j s.msgs ≤ 1

/-- The invariant as carried through a detector step's outcome. -/
def BOut (j : Nat) : Except (HResult × List Msg × List Nat) BState → Prop
  | .error (_, m, _) => countB j m ≤ 1
  | .ok s => BInv j s

theorem BOut_bind {j : Nat} {e : Except (HResult × List Msg × List Nat) BState}
    {k : BState → Except (HResult × List Msg × List Nat) BState}
    (he : BOut j e) (hk : ∀ s, BInv j s → BOut j (k s)) : BOut j (e >>= k) := by
  cases e with
  | error err => exact he
  | ok s => exact hk s he

theorem processEntry_inv {j : Nat} {s : BState} (h : BInv j s) (w : Nat)
    (indices : Nat → Nat) (nFaces : Nat) (hasMsgs : Bool) (face : Nat) (e : Nat × Nat) :
    BOut j (processEntry w indices nFaces hasMsgs face s e) := by
  unfold processEntry
  by_cases hg1 : nFaces ≤ e.1
  · rw [if_pos hg1]
    exact h.2
  rw [if_neg hg1]
  by_cases hg2 : 2 < e.2
  · rw [if_pos hg2]
    exact h.2
  rw [if_neg hg2]
  by_cases hsent : s.faceIds (idxAt w indices e.1 e.2) = sentinel w
  · rw [if_pos hsent]
    exact h
  rw [if_neg hsent]
  by_cases hbow : s.faceIds (idxAt w indices e.1 e.2) ≠ face % 2 ^ w ∧
      s.vertexBowtie (idxAt w indices e.1 e.2) = false
  · rw [if_pos hbow]
    by_cases hm : hasMsgs = false
    · rw [if_pos hm]
      exact h.2
    rw [if_neg hm]
    have hz : countB j s.msgs = 0 ∨ idxAt w indices e.1 e.2 ≠ j := by
      by_cases hj : idxAt w indices e.1 e.2 = j
      · exact Or.inl (h.1 (hj ▸ hbow.2))
      · exact Or.inr hj
    constructor
    · intro hb
      show countB j ((if s.result then s.msgs ++ [Msg.bowtieHeader] else s.msgs) ++
        [Msg.bowtie (idxAt w indices e.1 e.2) e.1
          (s.faceUsing (idxAt w indices e.1 e.2))]) = 0
      have hbj : upd s.vertexBowtie (idxAt w indices e.1 e.2) true j = false := hb
      have hjne : idxAt w indices e.1 e.2 ≠ j := by
        intro he2
        unfold upd at hbj
        rw [if_pos he2.symm] at hbj
        cases hbj
      have hsb : s.vertexBowtie j = false := by
        unfold upd at hbj
        rw [if_neg (fun he2 => hjne he2.symm)] at hbj
        exact hbj
      rw [countB_append, countB_bowtie, if_neg hjne]
      have h0 := h.1 hsb
      cases hr : s.result <;> simp [hr, countB_append, countB_header, h0]
    · show countB j ((if s.result then s.msgs ++ [Msg.bowtieHeader] else s.msgs) ++
        [Msg.bowtie (idxAt w indices e.1 e.2) e.1
          (s.faceUsing (idxAt w indices e.1 e.2))]) ≤ 1
      rw [countB_append, countB_bowtie]
      have hhead : countB j (if s.result then s.msgs ++ [Msg.bowtieHeader] else s.msgs) =
          countB j s.msgs := by
        cases hr : s.result <;> simp [countB_append, countB_header]
      rw [hhead]
      rcases hz with hz | hz
      · rw [hz]
        split <;> omega
      · rw [if_neg hz]
        have := h.2
        omega
  · rw [if_neg hbow]
    exact h

theorem processEntries_inv {j : Nat} (w : Nat) (indices : Nat → Nat) (nFaces : Nat)
    (hasMsgs : Bool) (face : Nat) (es : List (Nat × Nat)) {s : BState} (h : BInv j s) :
    BOut j (processEntries w indices nFaces hasMsgs face es s) := by
  induction es generalizing s with
  | nil => exact h
  | cons e es ih =>
    unfold processEntries
    have hpe := processEntry_inv h w indices nFaces hasMsgs face e
    rcases hres : processEntry w indices nFaces hasMsgs face s e with err | s2
    · rw [hres] at hpe
      exact hpe
    · rw [hres] at hpe
      exact ih hpe

theorem doPoint_inv {j : Nat} (w : Nat) (indices : Nat → Nat) (nFaces : Nat)
    (adj : Nat → Nat) (hasMsgs : Bool) (face point : Nat) {s : BState} (h : BInv j s) :
    BOut j (doPoint w indices nFaces adj hasMsgs face point s) := by
  unfold doPoint
  split
  · exact h
  · exact processEntries_inv w indices nFaces hasMsgs face _ h

theorem doBowtieFace_inv {j : Nat} (w : Nat) (indices : Nat → Nat) (nFaces : Nat)
    (adj : Nat → Nat) (hasMsgs : Bool) (face : Nat) {s : BState} (h : BInv j s) :
    BOut j (doBowtieFace w indices nFaces adj hasMsgs face s) := by
  unfold doBowtieFace
  split
  · exact h
  · exact BOut_bind (doPoint_inv w indices nFaces adj hasMsgs face 0 h)
      fun s1 h1 => BOut_bind (doPoint_inv w indices nFaces adj hasMsgs face 1 h1)
        fun s2 h2 => doPoint_inv w indices nFaces adj hasMsgs face 2 h2

theorem bowtieLoop_inv {j : Nat} (w : Nat) (indices : Nat → Nat) (nFaces : Nat)
    (adj : Nat → Nat) (hasMsgs : Bool) (fs : List Nat) {s : BState} (h : BInv j s) :
    BOut j (bowtieLoop w indices nFaces adj hasMsgs fs s) := by
  induction fs generalizing s with
  | nil => exact h
  | cons f fs ih =>
    unfold bowtieLoop
    have hf := doBowtieFace_inv w indices nFaces adj hasMsgs f h
    rcases hres : doBowtieFace w indices nFaces adj hasMsgs f s with err | s2
    · rw [hres] at hf
      exact hf
    · rw [hres] at hf
      exact ih hf

/-- Reduction of the detector when adjacency is absent. -/
theorem validateNoBowties_none (w : Nat) (indices : Nat → Nat) (nFaces nVerts : Nat)
    (hasMsgs : Bool) :
    validateNoBowties w indices nFaces nVerts none hasMsgs =
      (.E_INVALIDARG, (if hasMsgs then [Msg.missingAdjBowties] else []), []) := rfl

/-- Reduction of the detector when adjacency is present. -/
theorem validateNoBowties_some (w : Nat) (indices : Nat → Nat) (nFaces nVerts : Nat)
    (adj : Nat → Nat) (hasMsgs : Bool) :
    validateNoBowties w indices nFaces nVerts (some adj) hasMsgs =
      match bowtieLoop w indices nFaces adj hasMsgs (List.range nFaces) (initBState w) with
      | .error (hr, msgs, accesses) => (hr, msgs, accesses)
      | .ok s => ((if s.result then .S_OK else .E_FAIL), s.msgs, s.accesses) := rfl

/-- The detector as a whole appends at most one bowtie diagnostic per vertex. -/
theorem validateNoBowties_countB (w : Nat) (indices : Nat → Nat) (nFaces nVerts : Nat)
    (adjacency : Option (Nat → Nat)) (hasMsgs : Bool) (j : Nat) :
    countB j (validateNoBowties w indices nFaces nVerts adjacency hasMsgs).2.1 ≤ 1 := by
  cases adjacency with
  | none => cases hasMsgs <;> exact Nat.zero_le 1
  | some adj =>
    have hinit : BInv j (initBState w) := by
      constructor
      · intro
        rfl
      · exact Nat.zero_le 1
    have hout := bowtieLoop_inv w indices nFaces adj hasMsgs (List.range nFaces) hinit
    rcases hres : bowtieLoop w indices nFaces adj hasMsgs (List.range nFaces) (initBState w)
      with ⟨hr, m, a⟩ | s
    · rw [hres] at hout
      rw [validateNoBowties_some, hres]
      exact hout
    · rw [hres] at hout
      rw [validateNoBowties_some, hres]
      exact hout.2

/-- The index-validation stage never emits bowtie diagnostics. -/
theorem countB_faceViolations (w : Nat) (indices : Nat → Nat) (nFaces nVerts : Nat)
    (adjacency : Option (Nat → Nat)) (flags : Flags) (face j : Nat) :
    countB j (faceViolations w indices nFaces nVerts adjacency flags face) = 0 := by
  rw [countB, List.countP_eq_zero]
  intro m hm
  rcases mem_faceViolations_shape hm with ⟨p, _, _, rfl⟩ | ⟨a, p, _, _, _, rfl⟩ |
    ⟨_, _, rfl⟩ | ⟨_, a, _, _, _, rfl⟩ <;> simp

/-- Outcome predicate: a `ValidateIndices` run has no bowtie diagnostics. -/
def VOutNoBowtie (j : Nat) : Except (HResult × List Msg) VAcc → Prop
  | .error (_, m) => countB j m = 0
  | .ok st => countB j st.2 = 0

theorem doFace_countB {j : Nat} (w : Nat) (indices : Nat → Nat) (nFaces nVerts : Nat)
    (adjacency : Option (Nat → Nat)) (flags : Flags) (hasMsgs : Bool) (face : Nat)
    {st : VAcc} (h : countB j st.2 = 0) :
    VOutNoBowtie j (doFace w indices nFaces nVerts adjacency flags hasMsgs face st) := by
  cases hasMsgs with
  | true =>
    rw [doFace_msgs]
    show countB j (st.2 ++ faceViolations w indices nFaces nVerts adjacency flags face) = 0
    rw [countB_append, h, countB_faceViolations]
  | false =>
    rw [doFace_nomsgs]
    split
    · exact h
    · exact h

theorem loop_countB {j : Nat} (w : Nat) (indices : Nat → Nat) (nFaces nVerts : Nat)
    (adjacency : Option (Nat → Nat)) (flags : Flags) (hasMsgs : Bool) (fs : List Nat)
    {st : VAcc} (h : countB j st.2 = 0) :
    VOutNoBowtie j (validateIndicesLoop w indices nFaces nVerts adjacency flags hasMsgs fs st) := by
  induction fs generalizing st with
  | nil => exact h
  | cons f fs ih =>
    unfold validateIndicesLoop
    have hf := doFace_countB w indices nFaces nVerts adjacency flags hasMsgs f h
    rcases hres : doFace w indices nFaces nVerts adjacency flags hasMsgs f st with err | st2
    · rw [hres] at hf
      exact hf
    · rw [hres] at hf
      exact ih hf

/-- `ValidateIndices` never emits a bowtie diagnostic. -/
theorem countB_validateIndices (w : Nat) (indices : Nat → Nat) (nFaces nVerts : Nat)
    (adjacency : Option (Nat → Nat)) (flags : Flags) (hasMsgs : Bool) (j : Nat) :
    countB j (validateIndices w indices nFaces nVerts adjacency flags hasMsgs).2 = 0 := by
  unfold validateIndices
  split
  · cases hasMsgs <;> rfl
  · have hout := @loop_countB j w indices nFaces nVerts adjacency flags hasMsgs
      (List.range nFaces) (true, []) rfl
    rcases hres : validateIndicesLoop w indices nFaces nVerts adjacency flags hasMsgs
      (List.range nFaces) (true, []) with ⟨hr, m⟩ | ⟨r, m⟩
    · rw [hres] at hout
      exact hout
    · rw [hres] at hout
      exact hout

/-- Reduction of `Validate` on a null index pointer. -/
theorem validate_none (w : Nat) (nFaces nVerts : Nat) (adjacency : Option (Nat → Nat))
    (flags : Flags) (msgs0 : Option (List Msg)) :
    validate w none nFaces nVerts adjacency flags msgs0 = (.E_INVALIDARG, msgs0) := rfl

/-- Reduction of `Validate` on a non-null index pointer. -/
theorem validate_some (w : Nat) (idx : Nat → Nat) (nFaces nVerts : Nat)
    (adjacency : Option (Nat → Nat)) (flags : Flags) (msgs0 : Option (List Msg)) :
    validate w (some idx) nFaces nVerts adjacency flags msgs0 =
      if nFaces = 0 ∨ nVerts = 0 then (.E_INVALIDARG, msgs0)
      else if 4294967295 < nFaces % 2 ^ 64 * 3 % 2 ^ 64 then (.E_ARITHMETIC_OVERFLOW, msgs0)
      else if FAILED (validateIndices w idx nFaces nVerts adjacency flags msgs0.isSome).1 = true then
        ((validateIndices w idx nFaces nVerts adjacency flags msgs0.isSome).1,
          msgs0.map fun _ => (validateIndices w idx nFaces nVerts adjacency flags msgs0.isSome).2)
      else if flags.bowties = true then
        ((if FAILED (validateNoBowties w idx nFaces nVerts adjacency msgs0.isSome).1 = true
            then (validateNoBowties w idx nFaces nVerts adjacency msgs0.isSome).1 else .S_OK),
          msgs0.map fun _ =>
            (validateIndices w idx nFaces nVerts adjacency flags msgs0.isSome).2 ++
              (validateNoBowties w idx nFaces nVerts adjacency msgs0.isSome).2.1)
      else
        (.S_OK, msgs0.map fun _ =>
          (validateIndices w idx nFaces nVerts adjacency flags msgs0.isSome).2) := rfl

/-- C5: the bowtie detector appends at most one bowtie diagnostic per vertex
across the whole call: the per-vertex flagged bit is set on first report and
suppresses all later reports; and since the index-validation stage emits no
bowtie diagnostics, the same bound holds for the full `Validate` call with a
sink. -/
theorem bowtie_reported_once :
    (∀ (w : Nat) (indices : Nat → Nat) (nFaces nVerts : Nat)
        (adjacency : Option (Nat → Nat)) (hasMsgs : Bool) (j : Nat),
      countB j (validateNoBowties w indices nFaces nVerts adjacency hasMsgs).2.1 ≤ 1)
    ∧ (∀ (w : Nat) (indices : Option (Nat → Nat)) (nFaces nVerts : Nat)
        (adjacency : Option (Nat → Nat)) (flags : Flags) (j : Nat),
      countB j ((validate w indices nFaces nVerts adjacency flags (some [])).2.getD []) ≤ 1) := by
  refine ⟨validateNoBowties_countB, ?_⟩
  intro w indices nFaces nVerts adjacency flags j
  cases indices with
  | none => exact Nat.zero_le 1
  | some idx =>
    rw [validate_some]
    by_cases hg : nFaces = 0 ∨ nVerts = 0
    · rw [if_pos hg]
      exact Nat.zero_le 1
    rw [if_neg hg]
    by_cases hov : 4294967295 < nFaces % 2 ^ 64 * 3 % 2 ^ 64
    · rw [if_pos hov]
      exact Nat.zero_le 1
    rw [if_neg hov]
    simp only [Option.isSome_some]
    by_cases hf1 : FAILED (validateIndices w idx nFaces nVerts adjacency flags true).1 = true
    · rw [if_pos hf1]
      simp only [Option.map_some', Option.getD_some]
      rw [countB_validateIndices]
      exact Nat.zero_le 1
    rw [if_neg hf1]
    by_cases hbw : flags.bowties = true
    · rw [if_pos hbw]
      simp only [Option.map_some', Option.getD_some]
      rw [countB_append, countB_validateIndices]
      have hb := validateNoBowties_countB w idx nFaces nVerts adjacency true j
      omega
    · rw [if_neg hbw]
      simp only [Option.map_some', Option.getD_some]
      rw [countB_validateIndices]
      exact Nat.zero_le 1

/-- The sink's presence is all `Validate` reads from it: its final contents
are `some` iff a sink was passed. -/
theorem validate_snd_isSome (w : Nat) (indices : Option (Nat → Nat)) (nFaces nVerts : Nat)
    (adjacency : Option (Nat → Nat)) (flags : Flags) (msgs0 : Option (List Msg)) :
    (validate w indices nFaces nVerts adjacency flags msgs0).2.isSome = msgs0.isSome := by
  cases indices with
  | none => rfl
  | some idx =>
    rw [validate_some]
    split
    · rfl
    split
    · rfl
    split
    · cases msgs0 <;> rfl
    split
    · cases msgs0 <;> rfl
    · cases msgs0 <;> rfl

/-- Away from the early rejects, the sink's prior contents are irrelevant:
`Validate` clears the sink at call start. -/
theorem validate_some_sink (w : Nat) (idx : Nat → Nat) (nFaces nVerts : Nat)
    (adjacency : Option (Nat → Nat)) (flags : Flags) (a b : List Msg)
    (hg : ¬(nFaces = 0 ∨ nVerts = 0)) (hov : ¬(4294967295 < nFaces % 2 ^ 64 * 3 % 2 ^ 64)) :
    validate w (some idx) nFaces nVerts adjacency flags (some a) =
      validate w (some idx) nFaces nVerts adjacency flags (some b) := by
  simp only [validate_some, if_neg hg, if_neg hov, Option.isSome_some, Option.map_some']

/-- C9: `Validate` is idempotent on its diagnostics: feeding the sink that a
call produced back into a second call with the same arguments reproduces the
same status and the same final sink contents (the sink is cleared at call
start, so only its presence matters). -/
theorem validate_idempotent (w : Nat) (indices : Option (Nat → Nat)) (nFaces nVerts : Nat)
    (adjacency : Option (Nat → Nat)) (flags : Flags) (msgs0 : Option (List Msg)) :
    validate w indices nFaces nVerts adjacency flags
        (validate w indices nFaces nVerts adjacency flags msgs0).2 =
      validate w indices nFaces nVerts adjacency flags msgs0 := by
  cases indices with
  | none => rfl
  | some idx =>
    by_cases hg : nFaces = 0 ∨ nVerts = 0
    · simp only [validate_some, if_pos hg]
    by_cases hov : 4294967295 < nFaces % 2 ^ 64 * 3 % 2 ^ 64
    · simp only [validate_some, if_neg hg, if_pos hov]
    cases msgs0 with
    | none =>
      cases hopt : (validate w (some idx) nFaces nVerts adjacency flags none).2 with
      | none => rfl
      | some m =>
        have h := validate_snd_isSome w (some idx) nFaces nVerts adjacency flags none
        rw [hopt] at h
        simp at h
    | some ms =>
      cases hopt : (validate w (some idx) nFaces nVerts adjacency flags (some ms)).2 with
      | some m1 =>
        exact validate_some_sink w idx nFaces nVerts adjacency flags m1 ms hg hov
      | none =>
        have h := validate_snd_isSome w (some idx) nFaces nVerts adjacency flags (some ms)
        rw [hopt] at h
        simp at h

/-- C6 (code-bug exhibit): the overflow guard computes `uint64_t(nFaces) * 3`
in wrapping 64-bit arithmetic, so for `nFaces = (2^64 + 2) / 3` the product
wraps to 2, the guard passes, and the call proceeds to return `S_OK` — even
though `nFaces * 3` mathematically exceeds the 32-bit index space. -/
theorem validate_overflow_check_wraps :
    validate 32 (some fun _ => 0) 6148914691236517206 1 none ⟨false, false, false⟩ none =
        (.S_OK, none) ∧
      4294967295 < 6148914691236517206 * 3 := by
  constructor
  · have hclean : (List.range 6148914691236517206).flatMap
        (faceViolations 32 (fun _ => 0) 6148914691236517206 1 none ⟨false, false, false⟩) = [] := by
      rw [List.flatMap_eq_nil_iff]
      intro f _
      simp [faceViolations, vertexPart, neighborPart, tailPart, vertexBad, idxAt, degenerate]
    have hvi := validateIndices_nomsgs 32 (fun _ => 0) 6148914691236517206 1 none
      ⟨false, false, false⟩ (by decide)
    rw [hclean] at hvi
    simp only [if_pos rfl] at hvi
    rw [validate_some]
    rw [if_neg (by decide : ¬(6148914691236517206 = 0 ∨ 1 = 0))]
    rw [if_neg (by decide : ¬(4294967295 < 6148914691236517206 % 2 ^ 64 * 3 % 2 ^ 64))]
    rw [show (none : Option (List Msg)).isSome = false from rfl]
    rw [hvi]
    simp [FAILED]
  · decide

/-- C7 counterexample: the internal-consistency exit of the bowtie detector
(adjacency leads to a face that does not hold the pivot at a valid corner)
returns plain `E_FAIL` — the very same status an ordinary validation failure
returns — so it is not a distinguished hard error; only the sink stays empty. -/
theorem orbit_failure_not_distinguished :
    validate 32 (some fun k => [0, 1, 2, 3, 4, 5].getD k 0) 2 6
        (some fun k => [1, 4294967295, 4294967295, 4294967295, 4294967295,
          4294967295].getD k 4294967295) ⟨false, true, false⟩ (some []) = (.E_FAIL, some []) ∧
      validate 32 (some fun k => [7, 1, 2].getD k 0) 1 3 none ⟨false, false, false⟩
        (some []) = (.E_FAIL, some [Msg.invalidIndex 7 0]) := by
  constructor <;> decide

/-- C7 (amended): when the orbit yields a pair whose face id is out of range
or whose corner is not 0..2, the detector exits immediately with the generic
`E_FAIL` — the same status value as an ordinary validation failure, not a
distinguished code — leaving the messages accumulated so far untouched (no
diagnostic is recorded for it even when a sink is present); concretely, the
inconsistent two-face mesh above fails whole-call with an empty sink. -/
theorem orbit_failure_generic_efail :
    (∀ (w : Nat) (indices : Nat → Nat) (nFaces : Nat) (hasMsgs : Bool) (face : Nat)
        (s : BState) (entry : Nat × Nat),
      (nFaces ≤ entry.1 ∨ 2 < entry.2) →
      processEntry w indices nFaces hasMsgs face s entry =
        .error (.E_FAIL, s.msgs, s.accesses)) ∧
    (validate 32 (some fun k => [0, 1, 2, 3, 4, 5].getD k 0) 2 6
        (some fun k => [1, 4294967295, 4294967295, 4294967295, 4294967295,
          4294967295].getD k 4294967295) ⟨false, true, false⟩ (some [])).1 = .E_FAIL := by
  constructor
  · rintro w indices nFaces hasMsgs face s entry (h | h)
    · unfold processEntry
      rw [if_pos h]
    · unfold processEntry
      by_cases h1 : nFaces ≤ entry.1
      · rw [if_pos h1]
      · rw [if_neg h1, if_pos h]
  · decide

/-- Witness for the universal part of the amended C7, at a concrete state. -/
theorem orbit_failure_generic_efail_witness :
    (1 ≤ 1 ∨ 2 < 3) ∧ processEntry 32 (fun _ => 0) 1 true 0 (initBState 32) (1, 3) =
      .error (.E_FAIL, (initBState 32).msgs, (initBState 32).accesses) :=
  ⟨Or.inl (Nat.le_refl 1),
    orbit_failure_generic_efail.1 32 (fun _ => 0) 1 true 0 (initBState 32) (1, 3)
      (Or.inl (Nat.le_refl 1))⟩

/-- C10 (code-bug exhibit): a one-face mesh carrying the sentinel at corner 2
passes index validation (the sentinel is always a legal index), yet the
bowtie detector indexes its `nVerts`-sized per-vertex tables at position
`0xFFFFFFFF`, far beyond `nVerts = 3`: an out-of-bounds access of the
scratch allocation. -/
theorem bowtie_sentinel_out_of_bounds :
    validateIndices 32 (fun k => [0, 1, 4294967295].getD k 0) 1 3
        (some fun _ => 4294967295) ⟨false, true, false⟩ true = (.S_OK, []) ∧
      4294967295 ∈ (validateNoBowties 32 (fun k => [0, 1, 4294967295].getD k 0) 1 3
        (some fun _ => 4294967295) true).2.2 ∧
      3 ≤ 4294967295 := by
  refine ⟨by decide, by decide, by decide⟩

/-- C3 counterexample: with a sink, the missing-adjacency `E_INVALIDARG` path
DOES append a message to the sink; and with the bowtie flag but without
adjacency, an index-validation failure preempts the invalid-argument error,
so the call returns `E_FAIL`, not `E_INVALIDARG`. -/
theorem validate_missing_adjacency_counterexample :
    validate 32 (some fun _ => 0) 1 3 none ⟨true, false, false⟩ (some []) =
        (.E_INVALIDARG, some [Msg.missingAdjBackfacing]) ∧
      validate 32 (some fun k => [7, 1, 2].getD k 0) 1 3 none ⟨false, true, false⟩ none =
        (.E_FAIL, none) := by
  constructor <;> decide

/-- C3 (amended): a required-check flag without adjacency yields
`E_INVALIDARG`, immediately for the backfacing check but only after the full
index scan for the bowtie check (an index-validation failure takes
precedence there); and when a sink is provided, a message naming the missing
check IS appended to it. -/
theorem validate_missing_adjacency (w : Nat) (idx : Nat → Nat) (nFaces nVerts : Nat)
    (flags : Flags) (msgs0 : Option (List Msg))
    (hnf : nFaces ≠ 0) (hnv : nVerts ≠ 0)
    (hov : nFaces % 2 ^ 64 * 3 % 2 ^ 64 ≤ 4294967295) :
    (flags.backfacing = true →
      validate w (some idx) nFaces nVerts none flags msgs0 =
        (.E_INVALIDARG, msgs0.map fun _ => [Msg.missingAdjBackfacing]))
    ∧ (flags.backfacing = false → flags.bowties = true →
        ((List.range nFaces).flatMap (faceViolations w idx nFaces nVerts none flags) = [] →
          validate w (some idx) nFaces nVerts none flags msgs0 =
            (.E_INVALIDARG, msgs0.map fun _ => [Msg.missingAdjBowties]))
        ∧ ((List.range nFaces).flatMap (faceViolations w idx nFaces nVerts none flags) ≠ [] →
          (validate w (some idx) nFaces nVerts none flags msgs0).1 = .E_FAIL)) := by
  have hgne : ¬(nFaces = 0 ∨ nVerts = 0) := by
    rintro (h | h)
    · exact hnf h
    · exact hnv h
  have hovne : ¬(4294967295 < nFaces % 2 ^ 64 * 3 % 2 ^ 64) := Nat.not_lt.mpr hov
  constructor
  · intro hb
    rw [validate_some, if_neg hgne, if_neg hovne]
    rw [validateIndices_noadj w idx nFaces nVerts flags msgs0.isSome hb]
    cases msgs0 with
    | none => rfl
    | some ms => rfl
  · intro hbf hbw
    have hpre : flags.backfacing = true → (none : Option (Nat → Nat)).isSome = true := by
      intro h
      rw [hbf] at h
      cases h
    constructor
    · intro hclean
      rw [validate_some, if_neg hgne, if_neg hovne]
      cases msgs0 with
      | none =>
        rw [show (none : Option (List Msg)).isSome = false from rfl]
        rw [validateIndices_nomsgs w idx nFaces nVerts none flags hpre, hclean]
        simp [FAILED, hbw, validateNoBowties_none]
      | some ms =>
        rw [show (some ms).isSome = true from rfl]
        rw [validateIndices_msgs w idx nFaces nVerts none flags hpre, hclean]
        simp [FAILED, hbw, validateNoBowties_none]
    · intro hdirty
      rw [validate_some, if_neg hgne, if_neg hovne]
      cases msgs0 with
      | none =>
        rw [show (none : Option (List Msg)).isSome = false from rfl]
        rw [validateIndices_nomsgs w idx nFaces nVerts none flags hpre]
        rw [if_neg hdirty]
        simp [FAILED]
      | some ms =>
        rw [show (some ms).isSome = true from rfl]
        rw [validateIndices_msgs w idx nFaces nVerts none flags hpre]
        rw [if_neg hdirty]
        simp [FAILED]

/-- Witness for the amended C3 at concrete inputs. -/
theorem validate_missing_adjacency_witness :
    ((1 : Nat) ≠ 0 ∧
      validate 32 (some fun _ => 0) 1 3 none ⟨true, false, false⟩ (some []) =
        (.E_INVALIDARG, some [Msg.missingAdjBackfacing])) :=
  ⟨by decide,
    (validate_missing_adjacency 32 (fun _ => 0) 1 3 ⟨true, false, false⟩ (some [])
      (by decide) (by decide) (by decide)).1 rfl⟩

/-- The value-for-value widening of a 16-bit index to 32 bits: the 16-bit
sentinel 0xFFFF maps to the 32-bit sentinel 0xFFFFFFFF, all other values map
to themselves. -/
def widen (i : Nat) : Nat := if i = 65535 then 4294967295 else i

/-- Widening applied to a diagnostic line: the vertex-index arguments (which
are `index_t`-valued) are widened, face and neighbor ids (printed from
`uint32_t`/loop counters) are unchanged. -/
def msgWiden : Msg → Msg
  | .invalidIndex i f => .invalidIndex (widen i) f
  | .duplicatePoint b f => .duplicatePoint (widen b) f
  | .bowtie v c u => .bowtie (widen v) c u
  | m => m

/-- Generic bind for the `Except` used by the detector. -/
theorem except_ok_bind {e a b : Type} (x : a) (k : a → Except e b) :
    (Except.ok x >>= k) = k x := rfl

/-- The detector's face loop splits over list concatenation. -/
theorem bowtieLoop_append (w : Nat) (indices : Nat → Nat) (nFaces : Nat) (adj : Nat → Nat)
    (hasMsgs : Bool) (fs gs : List Nat) (s : BState) :
    bowtieLoop w indices nFaces adj hasMsgs (fs ++ gs) s =
      bowtieLoop w indices nFaces adj hasMsgs fs s >>=
        bowtieLoop w indices nFaces adj hasMsgs gs := by
  induction fs generalizing s with
  | nil => rfl
  | cons f fs ih =>
    show bowtieLoop w indices nFaces adj hasMsgs (f :: (fs ++ gs)) s = _
    unfold bowtieLoop
    rcases doBowtieFace w indices nFaces adj hasMsgs f s with err | s2
    · rfl
    · exact ih s2

/-- A run over degenerate faces only marks their corners seen and changes
nothing else. -/
theorem bowtieLoop_degRange (w : Nat) (indices : Nat → Nat) (nFaces : Nat) (adj : Nat → Nat)
    (hasMsgs : Bool) (n : Nat) :
    ∀ (s : BState), (∀ f, f < n → degenerate w indices f) →
      bowtieLoop w indices nFaces adj hasMsgs (List.range n) s =
        .ok { s with faceSeen := fun k => if k < 3 * n then true else s.faceSeen k } := by
  induction n with
  | zero =>
    intro s _
    have h : (fun k => if k < 3 * 0 then true else s.faceSeen k) = s.faceSeen := by
      funext k
      simp
    rw [h]
    rfl
  | succ n ih =>
    intro s hdeg
    rw [List.range_succ, bowtieLoop_append, ih s (fun f hf => hdeg f (by omega)),
      except_ok_bind]
    show (match doBowtieFace w indices nFaces adj hasMsgs n
        { s with faceSeen := fun k => if k < 3 * n then true else s.faceSeen k } with
      | Except.error err => Except.error err
      | Except.ok s2 => bowtieLoop w indices nFaces adj hasMsgs [] s2) = _
    unfold doBowtieFace
    rw [if_pos (hdeg n (by omega))]
    show Except.ok (BState.mk
        (upd (upd (upd (fun k => if k < 3 * n then true else s.faceSeen k) (n * 3) true)
          (n * 3 + 1) true) (n * 3 + 2) true)
        s.faceIds s.faceUsing s.vertexBowtie s.result s.msgs s.accesses) =
      Except.ok (BState.mk (fun k => if k < 3 * (n + 1) then true else s.faceSeen k)
        s.faceIds s.faceUsing s.vertexBowtie s.result s.msgs s.accesses)
    have hfun : (upd (upd (upd (fun k => if k < 3 * n then true else s.faceSeen k) (n * 3) true)
          (n * 3 + 1) true) (n * 3 + 2) true) =
        fun k => if k < 3 * (n + 1) then true else s.faceSeen k := by
      funext k
      unfold upd
      by_cases h2 : k = n * 3 + 2
      · rw [if_pos h2, if_pos (by omega : k < 3 * (n + 1))]
      rw [if_neg h2]
      by_cases h1 : k = n * 3 + 1
      · rw [if_pos h1, if_pos (by omega : k < 3 * (n + 1))]
      rw [if_neg h1]
      by_cases h0 : k = n * 3
      · rw [if_pos h0, if_pos (by omega : k < 3 * (n + 1))]
      rw [if_neg h0]
      show (if k < 3 * n then true else s.faceSeen k) =
        if k < 3 * (n + 1) then true else s.faceSeen k
      by_cases hlt : k < 3 * n
      · rw [if_pos hlt, if_pos (by omega : k < 3 * (n + 1))]
      · rw [if_neg hlt, if_neg (by omega : ¬k < 3 * (n + 1))]
    rw [hfun]

/-- The (status, messages) summary of a detector loop outcome, as
`ValidateNoBowties` derives them (lines 250 and the fail-fast returns). -/
def bowtieOutcome : Except (HResult × List Msg × List Nat) BState → HResult × List Msg
  | .error (hr, m, _) => (hr, m)
  | .ok s => ((if s.result then .S_OK else .E_FAIL), s.msgs)

/-- The detector's status and messages are the summary of its loop. -/
theorem validateNoBowties_outcome (w : Nat) (indices : Nat → Nat) (nFaces nVerts : Nat)
    (adj : Nat → Nat) (hasMsgs : Bool) :
    ((validateNoBowties w indices nFaces nVerts (some adj) hasMsgs).1,
      (validateNoBowties w indices nFaces nVerts (some adj) hasMsgs).2.1) =
      bowtieOutcome (bowtieLoop w indices nFaces adj hasMsgs (List.range nFaces)
        (initBState w)) := by
  rw [validateNoBowties_some]
  rcases bowtieLoop w indices nFaces adj hasMsgs (List.range nFaces) (initBState w)
    with ⟨hr, m, a⟩ | s2
  · rfl
  · rfl

/-- First component of `validateNoBowties_outcome`. -/
theorem validateNoBowties_fst (w : Nat) (indices : Nat → Nat) (nFaces nVerts : Nat)
    (adj : Nat → Nat) (hasMsgs : Bool) :
    (validateNoBowties w indices nFaces nVerts (some adj) hasMsgs).1 =
      (bowtieOutcome (bowtieLoop w indices nFaces adj hasMsgs (List.range nFaces)
        (initBState w))).1 := by
  rw [validateNoBowties_some]
  rcases bowtieLoop w indices nFaces adj hasMsgs (List.range nFaces) (initBState w)
    with ⟨hr, m, a⟩ | s2
  · rfl
  · rfl

/-- Message component of `validateNoBowties_outcome`. -/
theorem validateNoBowties_msgs_fst (w : Nat) (indices : Nat → Nat) (nFaces nVerts : Nat)
    (adj : Nat → Nat) (hasMsgs : Bool) :
    (validateNoBowties w indices nFaces nVerts (some adj) hasMsgs).2.1 =
      (bowtieOutcome (bowtieLoop w indices nFaces adj hasMsgs (List.range nFaces)
        (initBState w))).2 := by
  rw [validateNoBowties_some]
  rcases bowtieLoop w indices nFaces adj hasMsgs (List.range nFaces) (initBState w)
    with ⟨hr, m, a⟩ | s2
  · rfl
  · rfl

/-- The 16-bit mesh of the width-divergence scenario: 65535 degenerate filler
faces (0,0,0), then face 65535 = (0,1,2) and face 65536 = (0,3,4), two
one-triangle fans sharing vertex 0. -/
def divergeIdx16 : Nat → Nat :=
  fun k => if k < 196605 then 0 else [0, 1, 2, 0, 3, 4].getD (k - 196605) 0

/-- All adjacency entries of the scenario are `UNUSED32`. -/
def divergeAdj : Nat → Nat := fun _ => 4294967295

theorem divergeIdx16_small (k : Nat) (h : k < 196605) : divergeIdx16 k = 0 := by
  unfold divergeIdx16
  rw [if_pos h]

theorem diverge_deg16 : ∀ f, f < 65535 → degenerate 16 divergeIdx16 f := by
  intro f hf
  left
  show divergeIdx16 (f * 3 + 0) % 2 ^ 16 = divergeIdx16 (f * 3 + 1) % 2 ^ 16
  rw [divergeIdx16_small _ (by omega), divergeIdx16_small _ (by omega)]

theorem diverge_deg32 : ∀ f, f < 65535 →
    degenerate 32 (fun k => widen (divergeIdx16 k % 65536)) f := by
  intro f hf
  left
  show widen (divergeIdx16 (f * 3 + 0) % 65536) % 2 ^ 32 =
    widen (divergeIdx16 (f * 3 + 1) % 65536) % 2 ^ 32
  rw [divergeIdx16_small _ (by omega), divergeIdx16_small _ (by omega)]

theorem diverge_fv16 : ∀ f, f < 65537 →
    faceViolations 16 divergeIdx16 65537 5 (some divergeAdj) ⟨false, true, false⟩ f = [] := by
  intro f hf
  by_cases hlt : f < 65535
  · have k0 : idxAt 16 divergeIdx16 f 0 = 0 := by
      show divergeIdx16 (f * 3 + 0) % 2 ^ 16 = 0
      rw [divergeIdx16_small _ (by omega)]
      decide
    have k1 : idxAt 16 divergeIdx16 f 1 = 0 := by
      show divergeIdx16 (f * 3 + 1) % 2 ^ 16 = 0
      rw [divergeIdx16_small _ (by omega)]
      decide
    have k2 : idxAt 16 divergeIdx16 f 2 = 0 := by
      show divergeIdx16 (f * 3 + 2) % 2 ^ 16 = 0
      rw [divergeIdx16_small _ (by omega)]
      decide
    have ha : ∀ p, adjAt divergeAdj f p = 4294967295 := fun p => rfl
    simp [faceViolations, vertexPart, neighborPart, tailPart, vertexBad, neighborBad,
      degenerate, k0, k1, k2, ha, UNUSED32, sentinel]
  · have h2 : f = 65535 ∨ f = 65536 := by omega
    rcases h2 with rfl | rfl <;> decide

theorem diverge_fv32 : ∀ f, f < 65537 →
    faceViolations 32 (fun k => widen (divergeIdx16 k % 65536)) 65537 5 (some divergeAdj)
      ⟨false, true, false⟩ f = [] := by
  intro f hf
  by_cases hlt : f < 65535
  · have k0 : idxAt 32 (fun k => widen (divergeIdx16 k % 65536)) f 0 = 0 := by
      show widen (divergeIdx16 (f * 3 + 0) % 65536) % 2 ^ 32 = 0
      rw [divergeIdx16_small _ (by omega)]
      decide
    have k1 : idxAt 32 (fun k => widen (divergeIdx16 k % 65536)) f 1 = 0 := by
      show widen (divergeIdx16 (f * 3 + 1) % 65536) % 2 ^ 32 = 0
      rw [divergeIdx16_small _ (by omega)]
      decide
    have k2 : idxAt 32 (fun k => widen (divergeIdx16 k % 65536)) f 2 = 0 := by
      show widen (divergeIdx16 (f * 3 + 2) % 65536) % 2 ^ 32 = 0
      rw [divergeIdx16_small _ (by omega)]
      decide
    have ha : ∀ p, adjAt divergeAdj f p = 4294967295 := fun p => rfl
    simp [faceViolations, vertexPart, neighborPart, tailPart, vertexBad, neighborBad,
      degenerate, k0, k1, k2, ha, UNUSED32, sentinel]
  · have h2 : f = 65535 ∨ f = 65536 := by omega
    rcases h2 with rfl | rfl <;> decide

theorem diverge_vi16 :
    validateIndices 16 divergeIdx16 65537 5 (some divergeAdj) ⟨false, true, false⟩ false =
      (.S_OK, []) := by
  rw [validateIndices_nomsgs 16 divergeIdx16 65537 5 (some divergeAdj) ⟨false, true, false⟩
    (by decide)]
  rw [List.flatMap_eq_nil_iff.mpr (fun f hf => diverge_fv16 f (List.mem_range.mp hf))]
  rfl

theorem diverge_vi32 :
    validateIndices 32 (fun k => widen (divergeIdx16 k % 65536)) 65537 5 (some divergeAdj)
      ⟨false, true, false⟩ false = (.S_OK, []) := by
  rw [validateIndices_nomsgs 32 (fun k => widen (divergeIdx16 k % 65536)) 65537 5
    (some divergeAdj) ⟨false, true, false⟩ (by decide)]
  rw [List.flatMap_eq_nil_iff.mpr (fun f hf => diverge_fv32 f (List.mem_range.mp hf))]
  rfl

theorem diverge_range_split : List.range 65537 = List.range 65535 ++ [65535, 65536] := by
  rw [show (65537 : Nat) = 65535 + 2 from rfl, List.range_add]
  rw [show List.map (fun x => 65535 + x) (List.range 2) = [65535, 65536] from by decide]

theorem diverge_outcome16 :
    (validateNoBowties 16 divergeIdx16 65537 5 (some divergeAdj) false).1 = .S_OK ∧
      (validateNoBowties 16 divergeIdx16 65537 5 (some divergeAdj) false).2.1 = [] := by
  constructor
  · rw [validateNoBowties_fst, diverge_range_split, bowtieLoop_append,
      bowtieLoop_degRange 16 divergeIdx16 65537 divergeAdj false 65535 (initBState 16)
        (fun f hf => diverge_deg16 f hf),
      except_ok_bind]
    decide
  · rw [validateNoBowties_msgs_fst, diverge_range_split, bowtieLoop_append,
      bowtieLoop_degRange 16 divergeIdx16 65537 divergeAdj false 65535 (initBState 16)
        (fun f hf => diverge_deg16 f hf),
      except_ok_bind]
    decide

theorem diverge_outcome32 :
    (validateNoBowties 32 (fun k => widen (divergeIdx16 k % 65536)) 65537 5
        (some divergeAdj) false).1 = .E_FAIL ∧
      (validateNoBowties 32 (fun k => widen (divergeIdx16 k % 65536)) 65537 5
        (some divergeAdj) false).2.1 = [] := by
  constructor
  · rw [validateNoBowties_fst, diverge_range_split, bowtieLoop_append,
      bowtieLoop_degRange 32 (fun k => widen (divergeIdx16 k % 65536)) 65537 divergeAdj false
        65535 (initBState 32) (fun f hf => diverge_deg32 f hf),
      except_ok_bind]
    decide
  · rw [validateNoBowties_msgs_fst, diverge_range_split, bowtieLoop_append,
      bowtieLoop_degRange 32 (fun k => widen (divergeIdx16 k % 65536)) 65537 divergeAdj false
        65535 (initBState 32) (fun f hf => diverge_deg32 f hf),
      except_ok_bind]
    decide

/-- Assembly of a `Validate` call that passes the argument checks and index
validation and runs the bowtie detector; stated over abstract arguments. -/
theorem validate_ok_bowties (w : Nat) (idx : Nat → Nat) (nFaces nVerts : Nat)
    (adjacency : Option (Nat → Nat)) (flags : Flags) (hr : HResult)
    (h0 : ¬(nFaces = 0 ∨ nVerts = 0))
    (h1 : ¬4294967295 < nFaces % 2 ^ 64 * 3 % 2 ^ 64)
    (h2 : validateIndices w idx nFaces nVerts adjacency flags false = (.S_OK, []))
    (h3 : flags.bowties = true)
    (h4 : (validateNoBowties w idx nFaces nVerts adjacency false).1 = hr) :
    validate w (some idx) nFaces nVerts adjacency flags none =
      ((if FAILED hr = true then hr else .S_OK), none) := by
  rw [validate_some]
  rw [if_neg h0, if_neg h1]
  rw [show (none : Option (List Msg)).isSome = false from rfl]
  rw [h2]
  rw [if_neg (by decide : ¬(FAILED ((HResult.S_OK, ([] : List Msg))).1 = true))]
  rw [if_pos h3]
  rw [h4]
  rfl

/-- C8 counterexample: the two entry points do NOT implement the same
contract on every mesh.  On a 16-bit mesh of 65537 faces whose face 65535
claims vertex 0 first, the detector stores `index_t(65535)` — the 16-bit
sentinel — into `faceIds[0]`, so the 16-bit run forgets the owner and
reports no bowtie (`S_OK`), while the widened 32-bit run keeps the owner
65535 and finds the bowtie with face 65536 (`E_FAIL`). -/
theorem validate_width_divergence :
    validate 16 (some divergeIdx16) 65537 5 (some divergeAdj) ⟨false, true, false⟩ none =
        (.S_OK, none) ∧
      validate 32 (some fun k => widen (divergeIdx16 k % 65536)) 65537 5 (some divergeAdj)
        ⟨false, true, false⟩ none = (.E_FAIL, none) := by
  constructor
  · have h := validate_ok_bowties 16 divergeIdx16 65537 5 (some divergeAdj)
      ⟨false, true, false⟩ .S_OK (by decide) (by decide) diverge_vi16 rfl
      diverge_outcome16.1
    exact h
  · have h := validate_ok_bowties 32 (fun k => widen (divergeIdx16 k % 65536)) 65537 5
      (some divergeAdj) ⟨false, true, false⟩ .E_FAIL (by decide) (by decide) diverge_vi32 rfl
      diverge_outcome32.1
    exact h

theorem widen_lt {p : Nat} (h : p < 65536) : widen p < 4294967296 := by
  unfold widen
  split <;> omega

theorem widen_mod32 {p : Nat} (h : p < 65536) : widen p % 2 ^ 32 = widen p :=
  Nat.mod_eq_of_lt (widen_lt h)

theorem widen_inj {a b : Nat} (ha : a < 65536) (hb : b < 65536) :
    widen a = widen b ↔ a = b := by
  unfold widen
  split <;> split <;> omega

theorem widen_eq_sent {a : Nat} (ha : a < 65536) : widen a = 4294967295 ↔ a = 65535 := by
  unfold widen
  split <;> omega

theorem widen_eq_of_ne {a : Nat} (h : a ≠ 65535) : widen a = a := by
  unfold widen
  rw [if_neg h]

theorem widen_eq_small {a c : Nat} (ha : a < 65536) (hc : c < 65535) :
    widen a = c ↔ a = c := by
  unfold widen
  split <;> omega

/-- Reading the widened index buffer is widening the 16-bit read. -/
theorem idxAt_widen (idx16 : Nat → Nat) (f p : Nat) :
    idxAt 32 (fun k => widen (idx16 k % 65536)) f p = widen (idxAt 16 idx16 f p) := by
  show widen (idx16 (f * 3 + p) % 65536) % 2 ^ 32 = widen (idx16 (f * 3 + p) % 2 ^ 16)
  exact widen_mod32 (Nat.mod_lt _ (by norm_num))

theorem idxAt16_lt (idx16 : Nat → Nat) (f p : Nat) : idxAt 16 idx16 f p < 65536 :=
  Nat.mod_lt _ (by norm_num)

theorem vertexBad_widen (idx16 : Nat → Nat) (nVerts f p : Nat) :
    vertexBad 32 (fun k => widen (idx16 k % 65536)) nVerts f p ↔
      vertexBad 16 idx16 nVerts f p := by
  unfold vertexBad
  rw [idxAt_widen]
  have hlt := idxAt16_lt idx16 f p
  by_cases hs : idxAt 16 idx16 f p = 65535
  · constructor
    · rintro ⟨_, hne⟩
      exact absurd (by rw [hs]; rfl) hne
    · rintro ⟨_, hne⟩
      exact absurd hs hne
  · rw [widen_eq_of_ne hs]
    constructor
    · rintro ⟨hle, _⟩
      exact ⟨hle, hs⟩
    · rintro ⟨hle, _⟩
      exact ⟨hle, by show ¬(_ = 4294967295); omega⟩

theorem degenerate_widen (idx16 : Nat → Nat) (f : Nat) :
    degenerate 32 (fun k => widen (idx16 k % 65536)) f ↔ degenerate 16 idx16 f := by
  unfold degenerate
  rw [idxAt_widen, idxAt_widen, idxAt_widen]
  rw [widen_inj (idxAt16_lt idx16 f 0) (idxAt16_lt idx16 f 1),
    widen_inj (idxAt16_lt idx16 f 0) (idxAt16_lt idx16 f 2),
    widen_inj (idxAt16_lt idx16 f 1) (idxAt16_lt idx16 f 2)]

theorem degBadVertex_widen (idx16 : Nat → Nat) (f : Nat) :
    degBadVertex 32 (fun k => widen (idx16 k % 65536)) f = widen (degBadVertex 16 idx16 f) := by
  unfold degBadVertex
  rw [idxAt_widen, idxAt_widen, idxAt_widen]
  by_cases h01 : idxAt 16 idx16 f 0 = idxAt 16 idx16 f 1
  · rw [if_pos ((widen_inj (idxAt16_lt idx16 f 0) (idxAt16_lt idx16 f 1)).mpr h01),
      if_pos h01]
  · rw [if_neg (fun hw => h01 ((widen_inj (idxAt16_lt idx16 f 0)
      (idxAt16_lt idx16 f 1)).mp hw)), if_neg h01]
    by_cases h12 : idxAt 16 idx16 f 1 = idxAt 16 idx16 f 2
    · rw [if_pos ((widen_inj (idxAt16_lt idx16 f 1) (idxAt16_lt idx16 f 2)).mpr h12),
        if_pos h12]
    · rw [if_neg (fun hw => h12 ((widen_inj (idxAt16_lt idx16 f 1)
        (idxAt16_lt idx16 f 2)).mp hw)), if_neg h12]

theorem vertexPart_widen (idx16 : Nat → Nat) (nVerts f p : Nat) :
    vertexPart 32 (fun k => widen (idx16 k % 65536)) nVerts f p =
      (vertexPart 16 idx16 nVerts f p).map msgWiden := by
  unfold vertexPart
  by_cases hb : vertexBad 16 idx16 nVerts f p
  · rw [if_pos ((vertexBad_widen idx16 nVerts f p).mpr hb), if_pos hb]
    simp [msgWiden, idxAt_widen]
  · rw [if_neg (fun hw => hb ((vertexBad_widen idx16 nVerts f p).mp hw)), if_neg hb]
    rfl

theorem neighborPart_map (adjacency : Option (Nat → Nat)) (nFaces f p : Nat) :
    (neighborPart adjacency nFaces f p).map msgWiden = neighborPart adjacency nFaces f p := by
  cases adjacency with
  | none => rfl
  | some a =>
    rw [neighborPart_some]
    split <;> rfl

theorem tailPart_widen (idx16 : Nat → Nat) (adjacency : Option (Nat → Nat)) (flags : Flags)
    (f : Nat) :
    tailPart 32 (fun k => widen (idx16 k % 65536)) adjacency flags f =
      (tailPart 16 idx16 adjacency flags f).map msgWiden := by
  unfold tailPart
  by_cases hdeg : degenerate 16 idx16 f
  · rw [if_pos ((degenerate_widen idx16 f).mpr hdeg), if_pos hdeg]
    cases hfd : flags.degenerate <;>
      simp [msgWiden, degBadVertex_widen]
  · rw [if_neg (fun hw => hdeg ((degenerate_widen idx16 f).mp hw)), if_neg hdeg]
    cases adjacency with
    | none => rfl
    | some a =>
      split
      all_goals try rfl
      all_goals split <;> rfl

theorem faceViolations_widen (idx16 : Nat → Nat) (nFaces nVerts : Nat)
    (adjacency : Option (Nat → Nat)) (flags : Flags) (f : Nat) :
    faceViolations 32 (fun k => widen (idx16 k % 65536)) nFaces nVerts adjacency flags f =
      (faceViolations 16 idx16 nFaces nVerts adjacency flags f).map msgWiden := by
  unfold faceViolations
  simp only [List.map_append, vertexPart_widen, neighborPart_map, tailPart_widen]

/-- Width equivalence of the index-validation stage: the 32-bit run on the
widened buffer returns the same status and the widened messages. -/
theorem validateIndices_widen (idx16 : Nat → Nat) (nFaces nVerts : Nat)
    (adjacency : Option (Nat → Nat)) (flags : Flags) (hasMsgs : Bool) :
    validateIndices 32 (fun k => widen (idx16 k % 65536)) nFaces nVerts adjacency flags hasMsgs =
      ((validateIndices 16 idx16 nFaces nVerts adjacency flags hasMsgs).1,
        (validateIndices 16 idx16 nFaces nVerts adjacency flags hasMsgs).2.map msgWiden) := by
  unfold validateIndices
  by_cases hpre : (flags.backfacing && adjacency.isNone) = true
  · rw [if_pos hpre, if_pos hpre]
    cases hasMsgs <;> rfl
  · rw [if_neg hpre, if_neg hpre]
    have hfm : (List.range nFaces).flatMap
        (faceViolations 32 (fun k => widen (idx16 k % 65536)) nFaces nVerts adjacency flags) =
        ((List.range nFaces).flatMap
          (faceViolations 16 idx16 nFaces nVerts adjacency flags)).map msgWiden := by
      rw [List.map_flatMap]
      exact congrArg (List.flatMap (List.range nFaces))
        (funext fun f => faceViolations_widen idx16 nFaces nVerts adjacency flags f)
    cases hasMsgs with
    | true =>
      rw [loop_msgs, loop_msgs, hfm]
      rcases h16 : (List.range nFaces).flatMap
        (faceViolations 16 idx16 nFaces nVerts adjacency flags) with _ | ⟨m, rest⟩
      · rfl
      · rfl
    | false =>
      rw [loop_nomsgs, loop_nomsgs, hfm]
      rcases h16 : (List.range nFaces).flatMap
        (faceViolations 16 idx16 nFaces nVerts adjacency flags) with _ | ⟨m, rest⟩
      · rfl
      · rfl

/-- Locating the pivot corner commutes with widening the index buffer. -/
theorem findPoint_widen (idx16 : Nat → Nat) (face : Nat) {v : Nat} (hv : v < 65536) :
    findPoint 32 (fun k => widen (idx16 k % 65536)) face (widen v) =
      findPoint 16 idx16 face v := by
  unfold findPoint
  rw [idxAt_widen, idxAt_widen, idxAt_widen]
  by_cases h0 : idxAt 16 idx16 face 0 = v
  · rw [if_pos ((widen_inj (idxAt16_lt idx16 face 0) hv).mpr h0), if_pos h0]
  · rw [if_neg (fun hw => h0 ((widen_inj (idxAt16_lt idx16 face 0) hv).mp hw)), if_neg h0]
    by_cases h1 : idxAt 16 idx16 face 1 = v
    · rw [if_pos ((widen_inj (idxAt16_lt idx16 face 1) hv).mpr h1), if_pos h1]
    · rw [if_neg (fun hw => h1 ((widen_inj (idxAt16_lt idx16 face 1) hv).mp hw)), if_neg h1]
      by_cases h2 : idxAt 16 idx16 face 2 = v
      · rw [if_pos ((widen_inj (idxAt16_lt idx16 face 2) hv).mpr h2), if_pos h2]
      · rw [if_neg (fun hw => h2 ((widen_inj (idxAt16_lt idx16 face 2) hv).mp hw)), if_neg h2]

/-- Unfolding of one fueled orbit step. -/
theorem orbitDir_succ (w : Nat) (indices adj : Nat → Nat) (startFace pivot : Nat)
    (ccw : Bool) (fuel face point : Nat) :
    orbitDir w indices adj startFace pivot ccw (fuel + 1) face point =
      if 2 < point then ([], .badPoint)
      else if orbitNext adj face point ccw = UNUSED32 then ([], .boundary)
      else if orbitNext adj face point ccw = startFace then ([], .closed)
      else
        ((orbitNext adj face point ccw,
            findPoint w indices (orbitNext adj face point ccw) pivot) ::
          (orbitDir w indices adj startFace pivot ccw fuel (orbitNext adj face point ccw)
            (findPoint w indices (orbitNext adj face point ccw) pivot)).1,
          (orbitDir w indices adj startFace pivot ccw fuel (orbitNext adj face point ccw)
            (findPoint w indices (orbitNext adj face point ccw) pivot)).2) := rfl

/-- A directional orbit pass on the widened buffer around the widened pivot
follows exactly the 16-bit pass. -/
theorem orbitDir_widen (idx16 adj : Nat → Nat) (startFace : Nat) (v : Nat) (hv : v < 65536)
    (ccw : Bool) (fuel : Nat) :
    ∀ face point,
      orbitDir 32 (fun k => widen (idx16 k % 65536)) adj startFace (widen v) ccw fuel
          face point =
        orbitDir 16 idx16 adj startFace v ccw fuel face point := by
  induction fuel with
  | zero =>
    intro face point
    rfl
  | succ n ih =>
    intro face point
    rw [orbitDir_succ, orbitDir_succ]
    by_cases hp : 2 < point
    · rw [if_pos hp, if_pos hp]
    rw [if_neg hp, if_neg hp]
    by_cases hu : orbitNext adj face point ccw = UNUSED32
    · rw [if_pos hu, if_pos hu]
    rw [if_neg hu, if_neg hu]
    by_cases hsf : orbitNext adj face point ccw = startFace
    · rw [if_pos hsf, if_pos hsf]
    rw [if_neg hsf, if_neg hsf]
    rw [findPoint_widen idx16 (orbitNext adj face point ccw) hv,
      ih (orbitNext adj face point ccw)
        (findPoint 16 idx16 (orbitNext adj face point ccw) v)]

/-- Unfolding of the full orbit. -/
theorem orbitList_eq (w : Nat) (indices adj : Nat → Nat) (nFaces startFace pivot : Nat) :
    orbitList w indices adj nFaces startFace pivot =
      (startFace, findPoint w indices startFace pivot) ::
        ((orbitDir w indices adj startFace pivot true (3 * nFaces + 3) startFace
            (findPoint w indices startFace pivot)).1 ++
          match (orbitDir w indices adj startFace pivot true (3 * nFaces + 3) startFace
              (findPoint w indices startFace pivot)).2 with
          | .boundary =>
            (orbitDir w indices adj startFace pivot false (3 * nFaces + 3) startFace
              (findPoint w indices startFace pivot)).1
          | _ => []) := rfl

/-- The full orbit of the widened pivot on the widened buffer is the 16-bit
orbit: the emitted (face, corner) pairs are width-independent. -/
theorem orbitList_widen (idx16 adj : Nat → Nat) (nFaces startFace : Nat) (v : Nat)
    (hv : v < 65536) :
    orbitList 32 (fun k => widen (idx16 k % 65536)) adj nFaces startFace (widen v) =
      orbitList 16 idx16 adj nFaces startFace v := by
  rw [orbitList_eq, orbitList_eq]
  rw [findPoint_widen idx16 startFace hv]
  rw [orbitDir_widen idx16 adj startFace v hv true (3 * nFaces + 3) startFace
    (findPoint 16 idx16 startFace v)]
  rw [orbitDir_widen idx16 adj startFace v hv false (3 * nFaces + 3) startFace
    (findPoint 16 idx16 startFace v)]

/-- Width simulation between the 16-bit detector state and the state of the
32-bit detector run on the widened buffer: the per-corner table agrees, the
per-vertex tables agree at widened positions (`faceIds` up to widening of the
stored owner, which must fit in 16 bits), and the verdict and messages agree
up to widening. -/
structure WRel (s16 s32 : BState) : Prop where
  seen : s32.faceSeen = s16.faceSeen
  ids : ∀ j, j < 65536 → s32.faceIds (widen j) = widen (s16.faceIds j)
  idsLt : ∀ j, j < 65536 → s16.faceIds j < 65536
  fuse : ∀ j, j < 65536 → s32.faceUsing (widen j) = s16.faceUsing j
  bow : ∀ j, j < 65536 → s32.vertexBowtie (widen j) = s16.vertexBowtie j
  res : s32.result = s16.result
  msgs : s32.msgs = s16.msgs.map msgWiden

/-- The simulation on detector step outcomes: related states on success,
equal status and widened messages on a fatal stop. -/
def EW : Except (HResult × List Msg × List Nat) BState →
    Except (HResult × List Msg × List Nat) BState → Prop
  | .error e16, .error e32 => e32.1 = e16.1 ∧ e32.2.1 = e16.2.1.map msgWiden
  | .ok s16, .ok s32 => WRel s16 s32
  | _, _ => False

theorem EW_bind {e16 e32 : Except (HResult × List Msg × List Nat) BState}
    {k16 k32 : BState → Except (HResult × List Msg × List Nat) BState}
    (he : EW e16 e32) (hk : ∀ s16 s32, WRel s16 s32 → EW (k16 s16) (k32 s32)) :
    EW (e16 >>= k16) (e32 >>= k32) := by
  cases e16 with
  | error a =>
    cases e32 with
    | error b => exact he
    | ok s => exact he.elim
  | ok s16 =>
    cases e32 with
    | error b => exact he.elim
    | ok s32 => exact hk s16 s32 he

/-- One orbit entry processed on the widened buffer simulates the 16-bit
processing of the same entry. -/
theorem processEntry_widen (idx16 : Nat → Nat) (nFaces : Nat) (hasMsgs : Bool)
    (face : Nat) (hface : face < nFaces) (hnf : nFaces ≤ 65535)
    {s16 s32 : BState} (hs : WRel s16 s32) (e : Nat × Nat) :
    EW (processEntry 16 idx16 nFaces hasMsgs face s16 e)
      (processEntry 32 (fun k => widen (idx16 k % 65536)) nFaces hasMsgs face s32 e) := by
  unfold processEntry
  by_cases hg1 : nFaces ≤ e.1
  · rw [if_pos hg1, if_pos hg1]
    exact ⟨rfl, hs.msgs⟩
  rw [if_neg hg1, if_neg hg1]
  by_cases hg2 : 2 < e.2
  · rw [if_pos hg2, if_pos hg2]
    exact ⟨rfl, hs.msgs⟩
  rw [if_neg hg2, if_neg hg2]
  rw [idxAt_widen idx16 e.1 e.2]
  have hjlt : idxAt 16 idx16 e.1 e.2 < 65536 := idxAt16_lt idx16 e.1 e.2
  have hids := hs.ids (idxAt 16 idx16 e.1 e.2) hjlt
  have hidslt := hs.idsLt (idxAt 16 idx16 e.1 e.2) hjlt
  have hfm16 : face % 2 ^ 16 = face := Nat.mod_eq_of_lt (by omega)
  have hfm32 : face % 2 ^ 32 = face := Nat.mod_eq_of_lt (by omega)
  have he1m16 : e.1 % 2 ^ 16 = e.1 := Nat.mod_eq_of_lt (by omega)
  have he1m32 : e.1 % 2 ^ 32 = e.1 := Nat.mod_eq_of_lt (by omega)
  have hwf : widen face = face := widen_eq_of_ne (by omega)
  have hc3 : (s32.faceIds (widen (idxAt 16 idx16 e.1 e.2)) = sentinel 32) ↔
      (s16.faceIds (idxAt 16 idx16 e.1 e.2) = sentinel 16) := by
    rw [hids]
    show widen (s16.faceIds (idxAt 16 idx16 e.1 e.2)) = 4294967295 ↔
      s16.faceIds (idxAt 16 idx16 e.1 e.2) = 65535
    exact widen_eq_sent hidslt
  by_cases hc : s16.faceIds (idxAt 16 idx16 e.1 e.2) = sentinel 16
  · rw [if_pos hc, if_pos (hc3.mpr hc)]
    refine ⟨?_, ?_, ?_, ?_, ?_, ?_, ?_⟩
    · show upd s32.faceSeen (e.1 * 3 + e.2) true = upd s16.faceSeen (e.1 * 3 + e.2) true
      rw [hs.seen]
    · intro j2 hj2
      show (if widen j2 = widen (idxAt 16 idx16 e.1 e.2) then face % 2 ^ 32
          else s32.faceIds (widen j2)) =
        widen (if j2 = idxAt 16 idx16 e.1 e.2 then face % 2 ^ 16 else s16.faceIds j2)
      by_cases hjj : j2 = idxAt 16 idx16 e.1 e.2
      · rw [if_pos ((widen_inj hj2 hjlt).mpr hjj), if_pos hjj, hfm32, hfm16, hwf]
      · rw [if_neg (fun hw => hjj ((widen_inj hj2 hjlt).mp hw)), if_neg hjj]
        exact hs.ids j2 hj2
    · intro j2 hj2
      show (if j2 = idxAt 16 idx16 e.1 e.2 then face % 2 ^ 16 else s16.faceIds j2) < 65536
      by_cases hjj : j2 = idxAt 16 idx16 e.1 e.2
      · rw [if_pos hjj, hfm16]
        omega
      · rw [if_neg hjj]
        exact hs.idsLt j2 hj2
    · intro j2 hj2
      show (if widen j2 = widen (idxAt 16 idx16 e.1 e.2) then e.1 % 2 ^ 32
          else s32.faceUsing (widen j2)) =
        (if j2 = idxAt 16 idx16 e.1 e.2 then e.1 % 2 ^ 16 else s16.faceUsing j2)
      by_cases hjj : j2 = idxAt 16 idx16 e.1 e.2
      · rw [if_pos ((widen_inj hj2 hjlt).mpr hjj), if_pos hjj, he1m32, he1m16]
      · rw [if_neg (fun hw => hjj ((widen_inj hj2 hjlt).mp hw)), if_neg hjj]
        exact hs.fuse j2 hj2
    · exact hs.bow
    · exact hs.res
    · exact hs.msgs
  rw [if_neg hc, if_neg (fun h32 => hc (hc3.mp h32))]
  have hc4 : (s32.faceIds (widen (idxAt 16 idx16 e.1 e.2)) ≠ face % 2 ^ 32 ∧
        s32.vertexBowtie (widen (idxAt 16 idx16 e.1 e.2)) = false) ↔
      (s16.faceIds (idxAt 16 idx16 e.1 e.2) ≠ face % 2 ^ 16 ∧
        s16.vertexBowtie (idxAt 16 idx16 e.1 e.2) = false) := by
    rw [hids, hfm32, hfm16, hs.bow (idxAt 16 idx16 e.1 e.2) hjlt]
    constructor
    · rintro ⟨ha, hb⟩
      exact ⟨fun h => ha ((widen_eq_small hidslt (by omega : face < 65535)).mpr h), hb⟩
    · rintro ⟨ha, hb⟩
      exact ⟨fun h => ha ((widen_eq_small hidslt (by omega : face < 65535)).mp h), hb⟩
  by_cases hb4 : s16.faceIds (idxAt 16 idx16 e.1 e.2) ≠ face % 2 ^ 16 ∧
      s16.vertexBowtie (idxAt 16 idx16 e.1 e.2) = false
  · rw [if_pos hb4, if_pos (hc4.mpr hb4)]
    by_cases hm : hasMsgs = false
    · rw [if_pos hm, if_pos hm]
      exact ⟨rfl, hs.msgs⟩
    rw [if_neg hm, if_neg hm]
    refine ⟨?_, hs.ids, hs.idsLt, hs.fuse, ?_, ?_, ?_⟩
    · show upd s32.faceSeen (e.1 * 3 + e.2) true = upd s16.faceSeen (e.1 * 3 + e.2) true
      rw [hs.seen]
    · intro j2 hj2
      show (if widen j2 = widen (idxAt 16 idx16 e.1 e.2) then true
          else s32.vertexBowtie (widen j2)) =
        (if j2 = idxAt 16 idx16 e.1 e.2 then true else s16.vertexBowtie j2)
      by_cases hjj : j2 = idxAt 16 idx16 e.1 e.2
      · rw [if_pos ((widen_inj hj2 hjlt).mpr hjj), if_pos hjj]
      · rw [if_neg (fun hw => hjj ((widen_inj hj2 hjlt).mp hw)), if_neg hjj]
        exact hs.bow j2 hj2
    · rfl
    · show ((if s32.result then s32.msgs ++ [Msg.bowtieHeader] else s32.msgs) ++
          [Msg.bowtie (widen (idxAt 16 idx16 e.1 e.2)) e.1
            (s32.faceUsing (widen (idxAt 16 idx16 e.1 e.2)))]) =
        (((if s16.result then s16.msgs ++ [Msg.bowtieHeader] else s16.msgs) ++
          [Msg.bowtie (idxAt 16 idx16 e.1 e.2) e.1
            (s16.faceUsing (idxAt 16 idx16 e.1 e.2))]).map msgWiden)
      rw [hs.res, hs.msgs, hs.fuse (idxAt 16 idx16 e.1 e.2) hjlt, List.map_append]
      cases hr : s16.result <;> simp [msgWiden]
  · rw [if_neg hb4, if_neg (fun h32 => hb4 (hc4.mp h32))]
    refine ⟨?_, hs.ids, hs.idsLt, hs.fuse, hs.bow, hs.res, hs.msgs⟩
    show upd s32.faceSeen (e.1 * 3 + e.2) true = upd s16.faceSeen (e.1 * 3 + e.2) true
    rw [hs.seen]

theorem processEntries_widen (idx16 : Nat → Nat) (nFaces : Nat) (hasMsgs : Bool)
    (face : Nat) (hface : face < nFaces) (hnf : nFaces ≤ 65535)
    (es : List (Nat × Nat)) :
    ∀ {s16 s32 : BState}, WRel s16 s32 →
      EW (processEntries 16 idx16 nFaces hasMsgs face es s16)
        (processEntries 32 (fun k => widen (idx16 k % 65536)) nFaces hasMsgs face es s32) := by
  induction es with
  | nil =>
    intro s16 s32 hs
    exact hs
  | cons e es ih =>
    intro s16 s32 hs
    unfold processEntries
    have hpe := processEntry_widen idx16 nFaces hasMsgs face hface hnf hs e
    rcases h16 : processEntry 16 idx16 nFaces hasMsgs face s16 e with err16 | sok16 <;>
      rcases h32 : processEntry 32 (fun k => widen (idx16 k % 65536)) nFaces hasMsgs face
        s32 e with err32 | sok32 <;>
      rw [h16, h32] at hpe
    · exact hpe
    · exact hpe.elim
    · exact hpe.elim
    · exact ih hpe

theorem doPoint_widen (idx16 adj : Nat → Nat) (nFaces : Nat) (hasMsgs : Bool)
    (face : Nat) (hface : face < nFaces) (hnf : nFaces ≤ 65535) (point : Nat)
    {s16 s32 : BState} (hs : WRel s16 s32) :
    EW (doPoint 16 idx16 nFaces adj hasMsgs face point s16)
      (doPoint 32 (fun k => widen (idx16 k % 65536)) nFaces adj hasMsgs face point s32) := by
  unfold doPoint
  rw [hs.seen]
  by_cases hseen : s16.faceSeen (face * 3 + point) = true
  · rw [if_pos hseen, if_pos hseen]
    exact hs
  rw [if_neg hseen, if_neg hseen]
  rw [idxAt_widen idx16 face point]
  rw [orbitList_widen idx16 adj nFaces face (idxAt 16 idx16 face point)
    (idxAt16_lt idx16 face point)]
  exact processEntries_widen idx16 nFaces hasMsgs face hface hnf _
    ⟨rfl, hs.ids, hs.idsLt, hs.fuse, hs.bow, hs.res, hs.msgs⟩

theorem doBowtieFace_widen (idx16 adj : Nat → Nat) (nFaces : Nat) (hasMsgs : Bool)
    (face : Nat) (hface : face < nFaces) (hnf : nFaces ≤ 65535)
    {s16 s32 : BState} (hs : WRel s16 s32) :
    EW (doBowtieFace 16 idx16 nFaces adj hasMsgs face s16)
      (doBowtieFace 32 (fun k => widen (idx16 k % 65536)) nFaces adj hasMsgs face s32) := by
  unfold doBowtieFace
  by_cases hdeg : degenerate 16 idx16 face
  · rw [if_pos hdeg, if_pos ((degenerate_widen idx16 face).mpr hdeg)]
    refine ⟨?_, hs.ids, hs.idsLt, hs.fuse, hs.bow, hs.res, hs.msgs⟩
    show upd (upd (upd s32.faceSeen (face * 3) true) (face * 3 + 1) true) (face * 3 + 2) true =
      upd (upd (upd s16.faceSeen (face * 3) true) (face * 3 + 1) true) (face * 3 + 2) true
    rw [hs.seen]
  rw [if_neg hdeg, if_neg (fun hw => hdeg ((degenerate_widen idx16 face).mp hw))]
  exact EW_bind (doPoint_widen idx16 adj nFaces hasMsgs face hface hnf 0 hs)
    fun a b hab => EW_bind (doPoint_widen idx16 adj nFaces hasMsgs face hface hnf 1 hab)
      fun c d hcd => doPoint_widen idx16 adj nFaces hasMsgs face hface hnf 2 hcd

theorem bowtieLoop_widen (idx16 adj : Nat → Nat) (nFaces : Nat) (hasMsgs : Bool)
    (hnf : nFaces ≤ 65535) (fs : List Nat) :
    ∀ {s16 s32 : BState}, (∀ f ∈ fs, f < nFaces) → WRel s16 s32 →
      EW (bowtieLoop 16 idx16 nFaces adj hasMsgs fs s16)
        (bowtieLoop 32 (fun k => widen (idx16 k % 65536)) nFaces adj hasMsgs fs s32) := by
  induction fs with
  | nil =>
    intro s16 s32 _ hs
    exact hs
  | cons f fs ih =>
    intro s16 s32 hmem hs
    unfold bowtieLoop
    have hdf := doBowtieFace_widen idx16 adj nFaces hasMsgs f
      (hmem f (List.mem_cons_self f fs)) hnf hs
    rcases h16 : doBowtieFace 16 idx16 nFaces adj hasMsgs f s16 with err16 | sok16 <;>
      rcases h32 : doBowtieFace 32 (fun k => widen (idx16 k % 65536)) nFaces adj hasMsgs f
        s32 with err32 | sok32 <;>
      rw [h16, h32] at hdf
    · exact hdf
    · exact hdf.elim
    · exact hdf.elim
    · exact ih (fun g hg => hmem g (List.mem_cons_of_mem f hg)) hdf

/-- The bowtie detector on the widened buffer returns the same status as the
16-bit detector and its messages widened, whenever all face ids fit in the
16-bit owner table without reaching the sentinel. -/
theorem validateNoBowties_widen (idx16 : Nat → Nat) (nFaces nVerts : Nat)
    (adjacency : Option (Nat → Nat)) (hasMsgs : Bool) (hnf : nFaces ≤ 65535) :
    (validateNoBowties 32 (fun k => widen (idx16 k % 65536)) nFaces nVerts adjacency
        hasMsgs).1 =
      (validateNoBowties 16 idx16 nFaces nVerts adjacency hasMsgs).1 ∧
    (validateNoBowties 32 (fun k => widen (idx16 k % 65536)) nFaces nVerts adjacency
        hasMsgs).2.1 =
      (validateNoBowties 16 idx16 nFaces nVerts adjacency hasMsgs).2.1.map msgWiden := by
  cases adjacency with
  | none =>
    cases hasMsgs <;> exact ⟨rfl, rfl⟩
  | some adj =>
    have hinit : WRel (initBState 16) (initBState 32) := by
      refine ⟨rfl, ?_, ?_, ?_, ?_, rfl, rfl⟩
      · intro j hj
        rfl
      · intro j hj
        show sentinel 16 < 65536
        decide
      · intro j hj
        rfl
      · intro j hj
        rfl
    have h := bowtieLoop_widen idx16 adj nFaces hasMsgs hnf (List.range nFaces)
      (fun f hf => List.mem_range.mp hf) hinit
    rw [validateNoBowties_some, validateNoBowties_some]
    rcases h16 : bowtieLoop 16 idx16 nFaces adj hasMsgs (List.range nFaces) (initBState 16)
      with ⟨hr16, m16, a16⟩ | sf16 <;>
      rcases h32 : bowtieLoop 32 (fun k => widen (idx16 k % 65536)) nFaces adj hasMsgs
        (List.range nFaces) (initBState 32) with ⟨hr32, m32, a32⟩ | sf32 <;>
      rw [h16, h32] at h
    · exact ⟨h.1, h.2⟩
    · exact h.elim
    · exact h.elim
    · constructor
      · show (if sf32.result then HResult.S_OK else HResult.E_FAIL) =
          (if sf16.result then HResult.S_OK else HResult.E_FAIL)
        rw [h.res]
      · exact h.msgs

/-- C8 (amended): for meshes whose face count fits the 16-bit owner table
without reaching its sentinel (`nFaces ≤ 0xFFFF`), the two entry points
implement the same contract: on the value-for-value widened index buffer
(16-bit sentinel mapped to the 32-bit sentinel) with identical `nFaces`,
`nVerts`, adjacency and flags, and a sink whose prior contents are widened
likewise, the 32-bit entry point returns the same status and its sink holds
exactly the widened 16-bit diagnostics. -/
theorem validate_width_equivalence (idx16 : Nat → Nat) (nFaces nVerts : Nat)
    (adjacency : Option (Nat → Nat)) (flags : Flags) (msgs0 : Option (List Msg))
    (hnf : nFaces ≤ 65535) :
    validate 32 (some fun k => widen (idx16 k % 65536)) nFaces nVerts adjacency flags
        (msgs0.map (List.map msgWiden)) =
      ((validate 16 (some idx16) nFaces nVerts adjacency flags msgs0).1,
        (validate 16 (some idx16) nFaces nVerts adjacency flags msgs0).2.map
          (List.map msgWiden)) := by
  cases msgs0 with
  | none =>
    rw [show Option.map (List.map msgWiden) (none : Option (List Msg)) = none from rfl]
    rw [validate_some, validate_some]
    rw [show (none : Option (List Msg)).isSome = false from rfl]
    have h1 : (validateIndices 32 (fun k => widen (idx16 k % 65536)) nFaces nVerts adjacency
        flags false).1 = (validateIndices 16 idx16 nFaces nVerts adjacency flags false).1 := by
      rw [validateIndices_widen]
    have h2 : (validateIndices 32 (fun k => widen (idx16 k % 65536)) nFaces nVerts adjacency
        flags false).2 =
        (validateIndices 16 idx16 nFaces nVerts adjacency flags false).2.map msgWiden := by
      rw [validateIndices_widen]
    have hb := validateNoBowties_widen idx16 nFaces nVerts adjacency false hnf
    rw [h1, h2, hb.1, hb.2]
    by_cases h0 : nFaces = 0 ∨ nVerts = 0
    · rw [if_pos h0, if_pos h0]
      rfl
    rw [if_neg h0, if_neg h0]
    by_cases hov : 4294967295 < nFaces % 2 ^ 64 * 3 % 2 ^ 64
    · rw [if_pos hov, if_pos hov]
      rfl
    rw [if_neg hov, if_neg hov]
    by_cases hfail : FAILED (validateIndices 16 idx16 nFaces nVerts adjacency flags
        false).1 = true
    · rw [if_pos hfail, if_pos hfail]
      rfl
    rw [if_neg hfail, if_neg hfail]
    by_cases hbow : flags.bowties = true
    · rw [if_pos hbow, if_pos hbow]
      rfl
    · rw [if_neg hbow, if_neg hbow]
      rfl
  | some m0 =>
    rw [show Option.map (List.map msgWiden) (some m0) = some (m0.map msgWiden) from rfl]
    rw [validate_some, validate_some]
    rw [show (some (m0.map msgWiden) : Option (List Msg)).isSome = true from rfl]
    rw [show (some m0 : Option (List Msg)).isSome = true from rfl]
    have h1 : (validateIndices 32 (fun k => widen (idx16 k % 65536)) nFaces nVerts adjacency
        flags true).1 = (validateIndices 16 idx16 nFaces nVerts adjacency flags true).1 := by
      rw [validateIndices_widen]
    have h2 : (validateIndices 32 (fun k => widen (idx16 k % 65536)) nFaces nVerts adjacency
        flags true).2 =
        (validateIndices 16 idx16 nFaces nVerts adjacency flags true).2.map msgWiden := by
      rw [validateIndices_widen]
    have hb := validateNoBowties_widen idx16 nFaces nVerts adjacency true hnf
    rw [h1, h2, hb.1, hb.2]
    by_cases h0 : nFaces = 0 ∨ nVerts = 0
    · rw [if_pos h0, if_pos h0]
      rfl
    rw [if_neg h0, if_neg h0]
    by_cases hov : 4294967295 < nFaces % 2 ^ 64 * 3 % 2 ^ 64
    · rw [if_pos hov, if_pos hov]
      rfl
    rw [if_neg hov, if_neg hov]
    by_cases hfail : FAILED (validateIndices 16 idx16 nFaces nVerts adjacency flags
        true).1 = true
    · rw [if_pos hfail, if_pos hfail]
      rfl
    rw [if_neg hfail, if_neg hfail]
    by_cases hbow : flags.bowties = true
    · rw [if_pos hbow, if_pos hbow]
      simp [List.map_append]
    · rw [if_neg hbow, if_neg hbow]
      rfl

/-- Witness for the amended C8 equivalence at a concrete input: a one-face
all-zero (degenerate, but unflagged) mesh with a sink. -/
theorem validate_width_equivalence_witness :
    (1 ≤ 65535) ∧
      validate 32 (some fun k => widen ((fun _ => (0 : Nat)) k % 65536)) 1 1 none
          ⟨false, false, false⟩
          ((some ([] : List Msg)).map (List.map msgWiden)) =
        ((validate 16 (some fun _ => (0 : Nat)) 1 1 none ⟨false, false, false⟩
            (some ([] : List Msg))).1,
          (validate 16 (some fun _ => (0 : Nat)) 1 1 none ⟨false, false, false⟩
            (some ([] : List Msg))).2.map (List.map msgWiden)) :=
  ⟨by decide,
    validate_width_equivalence (fun _ => 0) 1 1 none ⟨false, false, false⟩
      (some []) (by decide)⟩

end DXMesh
